import Mathlib

/-!
Verification of the semantic-analysis and intermediate-code-generation core of
the `faseSemantico` compiler (Python sources under `src/semantics/`):
the type system (`types.py`), scopes (`scope.py`), the semantic checker
(`checker.py`), the temporary pool (`temp.py`), runtime frame layouts
(`runtime.py`), the TAC generator (`icg.py`, `ir.py`) and the MIPS backend's
stack frames (`codegen_mips.py`), shallowly embedded as executable Lean
definitions.
-/

deriving instance DecidableEq for Except

namespace FaseSemantico

/-! ## Type system (`src/semantics/types.py`)

`Type` with subclasses `IntegerType, FloatType, StringType, BooleanType,
NullType, ArrayType(elem), ClassType(name)`.  The base-class
`is_compatible` is `isinstance(other, type(self))`; `ArrayType` additionally
requires compatible element types and `ClassType` requires equal names. -/

inductive Ty where
  | integer
  | float
  | string
  | boolean
  | null
  | array (elem : Ty)
  | cls (name : String)
deriving Repr, DecidableEq

/-- `Type.is_compatible` / `ArrayType.is_compatible` / `ClassType.is_compatible`
from `types.py`: the primitive variants use the inherited
`isinstance(other, type(self))` test, arrays recurse on the element type,
classes compare names. -/
def isCompatible : Ty → Ty → Bool
  | .integer, .integer => true
  | .float, .float => true
  | .string, .string => true
  | .boolean, .boolean => true
  | .null, .null => true
  | .array e1, .array e2 => isCompatible e1 e2
  | .cls a, .cls b => a == b
  | _, _ => false

/-- `Type.__str__` from `types.py`: class name lowercased without the `Type`
suffix, `elem[]` for arrays, the class name for classes. -/
def Ty.toStr : Ty → String
  | .integer => "integer"
  | .float => "float"
  | .string => "string"
  | .boolean => "boolean"
  | .null => "null"
  | .array e => e.toStr ++ "[]"
  | .cls n => n

/-- C4: `is_compatible` is reflexive for every type; an array is compatible
with exactly the arrays whose element type is compatible with its own; two
class types are compatible exactly when their names coincide (strict nominal
match, no inheritance-based widening). -/
theorem c4_is_compatible_laws :
    (∀ t : Ty, isCompatible t t = true) ∧
    (∀ (e t : Ty), isCompatible (.array e) t = true ↔
      ∃ e2, t = .array e2 ∧ isCompatible e e2 = true) ∧
    (∀ a b : String, isCompatible (.cls a) (.cls b) = true ↔ a = b) := by
  refine ⟨?_, ?_, ?_⟩
  · intro t
    induction t with
    | integer => rfl
    | float => rfl
    | string => rfl
    | boolean => rfl
    | null => rfl
    | array e ih => simpa [isCompatible] using ih
    | cls n => simp [isCompatible]
  · intro e t
    cases t with
    | array e2 => simp [isCompatible]
    | integer => simp [isCompatible]
    | float => simp [isCompatible]
    | string => simp [isCompatible]
    | boolean => simp [isCompatible]
    | null => simp [isCompatible]
    | cls n => simp [isCompatible]
  · intro a b
    simp [isCompatible]

/-! ## Temporary pool (`src/semantics/temp.py`)

`TempPool` holds a free list and a next-id counter.  `get` pops the most
recently released id (Python `list.pop()` removes the last element) and mints
`_next` only when the free list is empty; `release` appends to the free
list. -/

structure TempPool where
  free : List Nat
  next : Nat
deriving Repr, DecidableEq

/-- `TempPool.get`. -/
def tempGet (p : TempPool) : Nat × TempPool :=
  match p.free.getLast? with
  | some i => (i, { p with free := p.free.dropLast })
  | none => (p.next, { free := p.free, next := p.next + 1 })

/-- `TempPool.release`. -/
def tempRelease (p : TempPool) (idx : Nat) : TempPool :=
  { p with free := p.free ++ [idx] }

/-! ## Runtime frame layouts (`src/semantics/runtime.py`) -/

/-- `align_to(n, k)` from `runtime.py`. -/
def alignTo (n k : Nat) : Nat :=
  if n % k = 0 then n else n + (k - n % k)

/-- `VarInfo` from `runtime.py`. -/
structure VarInfo where
  name : String
  size : Nat
  offset : Int
deriving Repr, DecidableEq

/-- `FrameLayout` from `runtime.py`; the Python `params`/`locals` dicts are
insertion-ordered association lists. -/
structure FrameLayout where
  funcName : String
  params : List VarInfo
  locals : List VarInfo
  paramsSize : Nat
  localsSize : Nat
  frameSize : Nat
deriving Repr, DecidableEq

/-- Assignment into an insertion-ordered dict: replace in place when the key
exists, otherwise append. -/
def insertVar (l : List VarInfo) (v : VarInfo) : List VarInfo :=
  if l.any (fun w => w.name == v.name) then
    l.map (fun w => if w.name == v.name then v else w)
  else l ++ [v]

/-- `FrameLayout.add_param` for a symbol with no precomputed width
(`VarSymbol.width` defaults to 4, so `w = 4`): offset is 8 plus the sizes of
the parameters registered so far. -/
def flAddParam (fl : FrameLayout) (name : String) : FrameLayout :=
  let off : Int := 8 + ((fl.params.map (·.size)).sum : Nat)
  { fl with params := insertVar fl.params ⟨name, 4, off⟩ }

/-- `FrameLayout.add_local` with width `w`: grows `locals_size` first, then
records the local at offset `-locals_size`. -/
def flAddLocal (fl : FrameLayout) (name : String) (w : Nat) : FrameLayout :=
  let ls := fl.localsSize + w
  { fl with localsSize := ls, locals := insertVar fl.locals ⟨name, w, -(ls : Int)⟩ }

/-- `FrameLayout.finalize`: `frame_size = align_to(locals_size + 8, 8)`. -/
def flFinalize (fl : FrameLayout) : FrameLayout :=
  { fl with paramsSize := (fl.params.map (·.size)).sum,
            frameSize := alignTo (fl.localsSize + 8) 8 }

/-- Empty layout created by `RuntimeLayouts.frame` on first access. -/
def emptyFrame (name : String) : FrameLayout := ⟨name, [], [], 0, 0, 0⟩

/-! ## Backend stack frames (`src/semantics/codegen_mips.py`)

`StackFrame` tracks per-function locals at negative offsets starting at `-8`
and stepping by `WORD_SIZE = 4`. -/

structure StackFrame where
  functionName : String
  params : List String
  locals : List (String × Int)
  savedRegsUsed : List String
  nextLocalOffset : Int
  frameSize : Nat
deriving Repr, DecidableEq

/-- `StackFrame.__init__`. -/
def initStackFrame (name : String) : StackFrame := ⟨name, [], [], [], -8, 0⟩

/-- `StackFrame.add_local`: return the existing offset unchanged when the name
is already present, otherwise hand out `next_local_offset` and step it down by
`WORD_SIZE = 4`. -/
def sfAddLocal (fr : StackFrame) (name : String) : Int × StackFrame :=
  match fr.locals.lookup name with
  | some off => (off, fr)
  | none =>
      (fr.nextLocalOffset,
       { fr with locals := fr.locals ++ [(name, fr.nextLocalOffset)],
                 nextLocalOffset := fr.nextLocalOffset - 4 })

/-- `StackFrame.finalize`: 8-byte header plus a word per saved register and per
local, rounded up to a multiple of 8. -/
def sfFinalize (fr : StackFrame) : StackFrame :=
  let size := 8 + fr.savedRegsUsed.length * 4 + fr.locals.length * 4
  { fr with frameSize := if size % 8 = 0 then size else size + (8 - size % 8) }

/-- Fold a list of `add_local` requests into a frame. -/
def sfAddAll (fr : StackFrame) (names : List String) : StackFrame :=
  names.foldl (fun f n => (sfAddLocal f n).2) fr

/-- Invariant used for C10: the next free offset sits strictly below every
allocated offset. -/
def sfBelow (fr : StackFrame) : Prop :=
  ∀ pr ∈ fr.locals, fr.nextLocalOffset < pr.2

theorem sfAddLocal_step (fr : StackFrame) (n : String)
    (hn : fr.locals.lookup n = none) :
    sfAddLocal fr n =
      (fr.nextLocalOffset,
       { fr with locals := fr.locals ++ [(n, fr.nextLocalOffset)],
                 nextLocalOffset := fr.nextLocalOffset - 4 }) := by
  unfold sfAddLocal
  rw [hn]

theorem sfAddLocal_below (fr : StackFrame) (n : String) (h : sfBelow fr) :
    sfBelow (sfAddLocal fr n).2 := by
  cases hl : fr.locals.lookup n with
  | some off =>
      have : sfAddLocal fr n = (off, fr) := by unfold sfAddLocal; rw [hl]
      rw [this]
      exact h
  | none =>
      rw [sfAddLocal_step fr n hl]
      dsimp only [sfBelow]
      intro pr hpr
      simp only [List.mem_append, List.mem_singleton] at hpr
      rcases hpr with hpr | hpr
      · have := h pr hpr
        omega
      · subst hpr
        omega

theorem sfAddLocal_nodup (fr : StackFrame) (n : String)
    (h : sfBelow fr) (hnd : (fr.locals.map Prod.snd).Nodup) :
    ((sfAddLocal fr n).2.locals.map Prod.snd).Nodup := by
  cases hl : fr.locals.lookup n with
  | some off =>
      have : sfAddLocal fr n = (off, fr) := by unfold sfAddLocal; rw [hl]
      rw [this]
      exact hnd
  | none =>
      rw [sfAddLocal_step fr n hl]
      dsimp only
      simp only [List.map_append, List.map_cons, List.map_nil]
      rw [List.nodup_append]
      refine ⟨hnd, List.nodup_singleton _, ?_⟩
      intro x hx
      simp only [List.mem_singleton]
      rcases List.mem_map.mp hx with ⟨pr, hpr, hsnd⟩
      have := h pr hpr
      omega

theorem sfAddAll_below_nodup (names : List String) :
    ∀ fr : StackFrame, sfBelow fr → (fr.locals.map Prod.snd).Nodup →
      sfBelow (sfAddAll fr names) ∧ ((sfAddAll fr names).locals.map Prod.snd).Nodup := by
  induction names with
  | nil => intro fr h hnd; exact ⟨h, hnd⟩
  | cons n t ih =>
      intro fr h hnd
      have h1 := sfAddLocal_below fr n h
      have h2 := sfAddLocal_nodup fr n h hnd
      simpa [sfAddAll, List.foldl_cons] using ih (sfAddLocal fr n).2 h1 h2

/-- The slots `o, o-4, o-8, …` assigned to a list of fresh names in order. -/
def slotList (o : Int) : List String → List (String × Int)
  | [] => []
  | n :: t => (n, o) :: slotList (o - 4) t

theorem sfAddAll_fresh (names : List String) :
    ∀ fr : StackFrame, names.Nodup →
      (∀ n ∈ names, fr.locals.lookup n = none) →
      (sfAddAll fr names).locals = fr.locals ++ slotList fr.nextLocalOffset names := by
  induction names with
  | nil => intro fr _ _; simp [sfAddAll, slotList]
  | cons n t ih =>
      intro fr hnd hfresh
      have hn : fr.locals.lookup n = none := hfresh n (by simp)
      have hnd' : t.Nodup := (List.nodup_cons.mp hnd).2
      have hnotmem : n ∉ t := (List.nodup_cons.mp hnd).1
      have hfresh' : ∀ m ∈ t, (fr.locals ++ [(n, fr.nextLocalOffset)]).lookup m = none := by
        intro m hm
        have hne : (m == n) = false := by
          simp only [beq_eq_false_iff_ne, ne_eq]
          intro he
          exact hnotmem (he ▸ hm)
        rw [List.lookup_append]
        simp [hfresh m (by simp [hm]), List.lookup, hne]
      have hrec := ih { fr with locals := fr.locals ++ [(n, fr.nextLocalOffset)],
                                nextLocalOffset := fr.nextLocalOffset - 4 } hnd' hfresh'
      simp only [sfAddAll, List.foldl_cons, sfAddLocal_step fr n hn] at hrec ⊢
      rw [hrec]
      simp [slotList, List.append_assoc]

/-- C10: backend local-slot allocation.  Re-adding a known name returns its
existing offset and leaves the frame unchanged; the offsets of the locals of a
frame built by any sequence of `add_local` calls are pairwise distinct; and
duplicate-free names receive the offsets `-8, -12, -16, …` in order of first
allocation. -/
theorem c10_stackframe_add_local :
    (∀ (fr : StackFrame) (n : String) (off : Int),
        fr.locals.lookup n = some off → sfAddLocal fr n = (off, fr)) ∧
    (∀ (fn : String) (names : List String),
        ((sfAddAll (initStackFrame fn) names).locals.map Prod.snd).Nodup) ∧
    (∀ (fn : String) (names : List String), names.Nodup →
        (sfAddAll (initStackFrame fn) names).locals = slotList (-8) names) := by
  refine ⟨?_, ?_, ?_⟩
  · intro fr n off h
    unfold sfAddLocal
    rw [h]
  · intro fn names
    have := sfAddAll_below_nodup names (initStackFrame fn)
      (by intro pr hpr; simp [initStackFrame] at hpr) (by simp [initStackFrame])
    exact this.2
  · intro fn names hnd
    have := sfAddAll_fresh names (initStackFrame fn) hnd
      (by intro n _; simp [initStackFrame])
    rw [this]
    simp [initStackFrame]

/-- Witness for C10 at concrete inputs: the frame `{x ↦ -8}` gives back `-8`
for `x` unchanged, and the duplicate-free names `["a", "b"]` receive `-8` and
`-12`. -/
theorem c10_stackframe_add_local_witness :
    (sfAddLocal ⟨"f", [], [("x", -8)], [], -12, 0⟩ "x" = (-8, ⟨"f", [], [("x", -8)], [], -12, 0⟩)) ∧
    (((sfAddAll (initStackFrame "g") ["a", "b"]).locals.map Prod.snd).Nodup) ∧
    ((sfAddAll (initStackFrame "g") ["a", "b"]).locals = [("a", -8), ("b", -12)]) := by
  refine ⟨?_, ?_, ?_⟩
  · exact c10_stackframe_add_local.1 ⟨"f", [], [("x", -8)], [], -12, 0⟩ "x" (-8) (by decide)
  · exact c10_stackframe_add_local.2.1 "g" ["a", "b"]
  · have := c10_stackframe_add_local.2.2 "g" ["a", "b"] (by decide)
    rw [this]
    decide

/-! ## Parse-tree fragment shared by the checker and the TAC generator

Each node carries the `line`/`column` of its start token (used by
`SemanticChecker.err`).  `additive` mirrors an `additiveExpr` node: a first
`multiplicativeExpr` child plus `(operator, child)` pairs; `relE`/`eqE`
mirror two-child `relationalExpr`/`equalityExpr` nodes, `andE`/`orE`
two-child logical nodes. -/

structure Pos where
  line : Nat
  col : Nat
deriving Repr, DecidableEq

inductive Expr where
  | litE (pos : Pos) (text : String)
  | identE (pos : Pos) (name : String)
  | additive (pos : Pos) (first : Expr) (rest : List (String × Expr))
  | relE (pos : Pos) (op : String) (lhs rhs : Expr)
  | eqE (pos : Pos) (op : String) (lhs rhs : Expr)
  | andE (pos : Pos) (lhs rhs : Expr)
  | orE (pos : Pos) (lhs rhs : Expr)
  | ternary (pos : Pos) (cond thenE elseE : Expr)
deriving Repr

inductive Stmt where
  | exprStmt (pos : Pos) (e : Expr)
  | varDecl (pos : Pos) (name : String) (ann : Option String) (initE : Option Expr)
  | blockS (pos : Pos) (stmts : List Stmt)
  | ifS (pos : Pos) (cond : Expr) (thenB : List Stmt) (elseB : Option (List Stmt))
  | whileS (pos : Pos) (cond : Expr) (body : List Stmt)
  | retS (pos : Pos) (e : Option Expr)
  | funcDecl (pos : Pos) (name : String) (params : List (String × Option String))
      (retAnn : Option String) (body : List Stmt)
deriving Repr

/-! ## Symbols and scopes (`src/semantics/symbols.py`, `src/semantics/scope.py`) -/

inductive Sym where
  | var (ty : Ty) (isConst : Bool) (initialized : Bool)
  | func (ret : Ty) (params : List (String × Ty))
deriving Repr, DecidableEq

/-- Every `Symbol` subclass carries a `type` attribute. -/
def Sym.type : Sym → Ty
  | .var t _ _ => t
  | .func r _ => r

/-- The checker's scope chain, innermost frame first; the global scope is the
last frame.  Each frame is the `symbols` dict of one `Scope`. -/
def Scopes := List (List (String × Sym))

/-- `Scope.resolve`: walk the parent chain outward, first hit wins. -/
def scopeResolve : List (List (String × Sym)) → String → Option Sym
  | [], _ => none
  | f :: rest, n =>
      match f.lookup n with
      | some s => some s
      | none => scopeResolve rest n

/-- `Scope.define` on the innermost scope: `none` models the `ValueError`
raised on a redeclaration in the same scope. -/
def scopeDefine (scs : List (List (String × Sym))) (n : String) (s : Sym) :
    Option (List (List (String × Sym))) :=
  match scs with
  | [] => none
  | f :: rest => if (f.lookup n).isSome then none else some ((f ++ [(n, s)]) :: rest)

/-! ## Semantic checker (`src/semantics/checker.py`)

State of a `SemanticChecker`; visits return `Except Unit (Option Ty)` where
`.error ()` models an uncaught Python exception (e.g. the `AttributeError`
from calling `is_compatible` on `None`) together with the state at the time it
propagates — Python exceptions do not roll back the already-appended
diagnostics. -/

structure ChkSt where
  scopes : List (List (String × Sym))
  errors : List String
  loopDepth : Nat
  currentFunction : Option Sym
deriving Repr, DecidableEq

/-- `SemanticChecker.err`: formatted `[SemanticError] L<line>:C<col> <message>`
appended to the running list. -/
def pushErr (st : ChkSt) (p : Pos) (msg : String) : ChkSt :=
  { st with errors :=
      st.errors ++ ["[SemanticError] L" ++ toString p.line ++ ":C" ++ toString p.col ++ " " ++ msg] }

/-- Python `str.lower()` (the names involved are ASCII). -/
def asciiLower (s : String) : String :=
  ⟨s.data.map (fun c => if 'A' ≤ c && c ≤ 'Z' then Char.ofNat (c.toNat + 32) else c)⟩

/-- `SemanticChecker._primitive_by_name`. -/
def primitiveByName (n : String) : Option Ty :=
  let l := asciiLower n
  if l == "int" || l == "integer" then some .integer
  else if l == "float" || l == "double" || l == "number" then some .float
  else if l == "string" || l == "str" then some .string
  else if l == "bool" || l == "boolean" then some .boolean
  else if l == "null" || l == "nil" || l == "none" then some .null
  else none

/-- `SemanticChecker._type_from_type` on the annotation text. -/
def typeFromTypeText (txt : String) : Ty :=
  if txt == "" then .null
  else if "[]".data.isSuffixOf txt.data then
    let base := String.mk (txt.data.take (txt.data.length - 2))
    .array ((primitiveByName base).getD (.cls base))
  else
    match primitiveByName txt with
    | some p => p
    | none => if txt == "void" then .null else .cls txt

/-- `SemanticChecker._type_from_annotation`. -/
def typeFromAnnotation (ann : Option String) : Option Ty :=
  ann.map typeFromTypeText

/-- `SemanticChecker.visitTerminal` applied to a token's text: string/boolean/
null/integer literals by shape, then scope resolution, else `None`. -/
def visitTerminalText (st : ChkSt) (t : String) : Option Ty :=
  if t.length ≥ 2 && t.front == '"' && t.back == '"' then some .string
  else if t == "true" || t == "false" then some .boolean
  else if t == "null" then some .null
  else if t.length > 0 && t.data.all Char.isDigit then some .integer
  else
    match scopeResolve st.scopes t with
    | some sym => some sym.type
    | none => none

/-- `isinstance(t, (IntegerType, FloatType))` on an optional visit result. -/
def isNumT : Option Ty → Bool
  | some .integer => true
  | some .float => true
  | _ => false

/-- `a.is_compatible(b)` where `b` is an optional visit result:
`isinstance(None, …)` is `False`, so a `None` argument is incompatible. -/
def isCompatOpt (a : Ty) (b : Option Ty) : Bool :=
  match b with
  | some b' => isCompatible a b'
  | none => false

/-- Python `str(...)` of an optional type: `str(None) = "None"`. -/
def optTyStr : Option Ty → String
  | some t => t.toStr
  | none => "None"

mutual

/-- Expression visitors of `SemanticChecker` (`visitAdditiveExpr`,
`visitRelationalExpr`, `visitEqualityExpr`, `visitLogicalAndExpr`,
`visitLogicalOrExpr`, `visitTernaryExpr`, and terminal/identifier dispatch
through the default `visitChildren`). -/
def chkExpr (e : Expr) (st : ChkSt) : Except Unit (Option Ty) × ChkSt :=
  match e, st with
  | .litE _ t, st => (.ok (visitTerminalText st t), st)
  | .identE _ n, st => (.ok (visitTerminalText st n), st)
  | .additive p first rest, st =>
      match rest with
      | [] => chkExpr first st
      | _ :: _ =>
        match chkExpr first st with
        | (.error u, st) => (.error u, st)
        | (.ok t0, st) =>
          match chkPairList rest st with
          | (.error u, st) => (.error u, st)
          | (.ok ts, st) =>
            let terms := t0 :: ts
            let ops := rest.map Prod.fst
            if terms.any (fun t => t == some Ty.string) then
              if ops.all (fun o => o == "+") then (.ok (some .string), st)
              else (.ok (some .null),
                    pushErr st p "Operación aditiva con string solo permite '+'.")
            else if terms.all isNumT then
              (.ok (some (if terms.any (fun t => t == some Ty.float) then Ty.float
                          else Ty.integer)), st)
            else (.ok (some .null),
                  pushErr st p "Suma/resta requiere operandos numéricos (integer/float).")
  | .relE p _ l r, st =>
      match chkExpr l st with
      | (.error u, st) => (.error u, st)
      | (.ok t0, st) =>
        match chkExpr r st with
        | (.error u, st) => (.error u, st)
        | (.ok t1, st) =>
          let st := if isNumT t0 && isNumT t1 then st
                    else pushErr st p "Comparación relacional requiere números."
          (.ok (some .boolean), st)
  | .eqE p _ l r, st =>
      match chkExpr l st with
      | (.error u, st) => (.error u, st)
      | (.ok t0, st) =>
        match chkExpr r st with
        | (.error u, st) => (.error u, st)
        | (.ok t1, st) =>
          match t0 with
          | none => (.error (), st)
          | some t0' =>
            let st := if isCompatOpt t0' t1 then st
                      else pushErr st p "Comparación entre tipos incompatibles."
            (.ok (some .boolean), st)
  | .andE p l r, st =>
      match chkExpr l st with
      | (.error u, st) => (.error u, st)
      | (.ok t0, st) =>
        let st := if t0 == some Ty.boolean then st
                  else pushErr st p "Operación lógica requiere booleanos."
        match chkExpr r st with
        | (.error u, st) => (.error u, st)
        | (.ok t1, st) =>
          let st := if t1 == some Ty.boolean then st
                    else pushErr st p "Operación lógica requiere booleanos."
          (.ok (some .boolean), st)
  | .orE p l r, st =>
      match chkExpr l st with
      | (.error u, st) => (.error u, st)
      | (.ok t0, st) =>
        let st := if t0 == some Ty.boolean then st
                  else pushErr st p "Operación lógica requiere booleanos."
        match chkExpr r st with
        | (.error u, st) => (.error u, st)
        | (.ok t1, st) =>
          let st := if t1 == some Ty.boolean then st
                    else pushErr st p "Operación lógica requiere booleanos."
          (.ok (some .boolean), st)
  | .ternary p c e1 e2, st =>
      match chkExpr c st with
      | (.error u, st) => (.error u, st)
      | (.ok condT, st) =>
        match chkExpr e1 st with
        | (.error u, st) => (.error u, st)
        | (.ok t1, st) =>
          match chkExpr e2 st with
          | (.error u, st) => (.error u, st)
          | (.ok t2, st) =>
            let st := if condT == some Ty.boolean then st
                      else pushErr st p "El predicado del operador ternario debe ser boolean."
            match t1 with
            | none => (.error (), st)
            | some t1' =>
              let st := if isCompatOpt t1' t2 then st
                        else pushErr st p "Ambas ramas del operador ternario deben tener el mismo tipo."
              (.ok (some t1'), st)
termination_by structural e

/-- Visits of the term list of an `additiveExpr` (in source order). -/
def chkPairList (l : List (String × Expr)) (st : ChkSt) :
    Except Unit (List (Option Ty)) × ChkSt :=
  match l, st with
  | [], st => (.ok [], st)
  | (_, e) :: t, st =>
      match chkExpr e st with
      | (.error u, st) => (.error u, st)
      | (.ok ty, st) =>
        match chkPairList t st with
        | (.error u, st) => (.error u, st)
        | (.ok ts, st) => (.ok (ty :: ts), st)
termination_by structural l

end

/-- `SemanticChecker._infer_type`: visit, catching every exception, and
defaulting `None` to `NULL`. -/
def inferType (e : Expr) (st : ChkSt) : Ty × ChkSt :=
  match chkExpr e st with
  | (.error _, st) => (.null, st)
  | (.ok t, st) => (t.getD .null, st)

/-- Parameter definitions in the fresh function scope, each wrapped in the
`try/except ValueError` of `visitFunctionDeclaration`. -/
def defineParams (ps : List (String × Ty)) (p : Pos) (st : ChkSt) : ChkSt :=
  ps.foldl
    (fun st pr =>
      match scopeDefine st.scopes pr.1 (Sym.var pr.2 false false) with
      | some scs => { st with scopes := scs }
      | none => pushErr st p ("Redeclaración en el mismo ámbito: " ++ pr.1))
    st

mutual

/-- Statement visitors of `SemanticChecker`.  There is no `visitBlock` in
`checker.py`, so a block node is handled by the generic `visitChildren`:
its statements are visited in the current scope, with no child `Scope`. -/
def chkStmt (s : Stmt) (st : ChkSt) : Except Unit Unit × ChkSt :=
  match s, st with
  | .exprStmt _ e, st =>
      match chkExpr e st with
      | (.error u, st) => (.error u, st)
      | (.ok _, st) => (.ok (), st)
  | .varDecl p name ann initE, st =>
      let declaredType := typeFromAnnotation ann
      let vst : Ty × ChkSt :=
        match declaredType with
        | some t => (t, st)
        | none =>
          match initE with
          | some e => inferType e st
          | none => (.null, pushErr st p
              ("No se puede inferir el tipo de '" ++ name ++ "' sin anotación ni inicializador."))
      let vtype := vst.1
      let st := vst.2
      let st :=
        match scopeDefine st.scopes name (Sym.var vtype false initE.isSome) with
        | some scs => { st with scopes := scs }
        | none => pushErr st p ("Redeclaración en el mismo ámbito: " ++ name)
      match initE with
      | none => (.ok (), st)
      | some e =>
        match chkExpr e st with
        | (.error u, st) => (.error u, st)
        | (.ok et, st) =>
          let etv := et.getD .null
          if isCompatible vtype etv then (.ok (), st)
          else (.ok (), pushErr st p
            ("Asignación incompatible: variable '" ++ name ++ "' es " ++ vtype.toStr ++
             " pero expresión es " ++ etv.toStr ++ "."))
  | .blockS _ ss, st => chkStmts ss st
  | .ifS p c tb eb, st =>
      match chkExpr c st with
      | (.error u, st) => (.error u, st)
      | (.ok condT, st) =>
        let st := if condT == some Ty.boolean then st
                  else pushErr st p "La condición de 'if' debe ser boolean."
        match chkStmts tb st with
        | (.error u, st) => (.error u, st)
        | (.ok _, st) =>
          match eb with
          | none => (.ok (), st)
          | some el => chkStmts el st
  | .whileS p c body, st =>
      match chkExpr c st with
      | (.error u, st) => (.error u, st)
      | (.ok condT, st) =>
        let st := if condT == some Ty.boolean then st
                  else pushErr st p "La condición de 'while' debe ser boolean."
        let st := { st with loopDepth := st.loopDepth + 1 }
        match chkStmts body st with
        | (.error u, st) => (.error u, st)
        | (.ok _, st) => (.ok (), { st with loopDepth := st.loopDepth - 1 })
  | .retS p e, st =>
      match st.currentFunction with
      | none => (.ok (), pushErr st p "'return' solo se permite dentro de una función.")
      | some fsym =>
        match e with
        | none =>
          let st := if isCompatOpt (Sym.type fsym) (some .null) then st
                    else pushErr st p ("El 'return' devuelve " ++ optTyStr (some .null) ++
                      " pero la función retorna " ++ (Sym.type fsym).toStr ++ ".")
          (.ok (), st)
        | some ex =>
          match chkExpr ex st with
          | (.error u, st) => (.error u, st)
          | (.ok et, st) =>
            let st := if isCompatOpt (Sym.type fsym) et then st
                      else pushErr st p ("El 'return' devuelve " ++ optTyStr et ++
                        " pero la función retorna " ++ (Sym.type fsym).toStr ++ ".")
            (.ok (), st)
  | .funcDecl p name params retAnn body, st =>
      let ret := match retAnn with
        | some t => typeFromTypeText t
        | none => Ty.null
      let paramSyms := params.map (fun pr =>
        (pr.1, match pr.2 with
               | some t => typeFromTypeText t
               | none => Ty.null))
      let fsym := Sym.func ret paramSyms
      let st :=
        match scopeDefine st.scopes name fsym with
        | some scs => { st with scopes := scs }
        | none => pushErr st p ("Redeclaración en el mismo ámbito: " ++ name)
      let saved := st
      let st := { st with scopes := [] :: st.scopes }
      let st := defineParams paramSyms p st
      let st := { st with currentFunction := some fsym }
      match chkStmts body st with
      | (.error u, st) => (.error u, st)
      | (.ok _, st) =>
          (.ok (), { st with currentFunction := saved.currentFunction,
                             scopes := saved.scopes })
termination_by structural s

/-- `visitProgram` / the statement sequence of a block via `visitChildren`. -/
def chkStmts (l : List Stmt) (st : ChkSt) : Except Unit Unit × ChkSt :=
  match l, st with
  | [], st => (.ok (), st)
  | s :: t, st =>
      match chkStmt s st with
      | (.error u, st) => (.error u, st)
      | (.ok _, st) => chkStmts t st
termination_by structural l

end

/-- Fresh `SemanticChecker()`: one (global) scope, no diagnostics. -/
def initChkSt : ChkSt := ⟨[[]], [], 0, none⟩

/-- `SemanticChecker().visit(tree)` on a program node. -/
def chkProgram (stmts : List Stmt) : Except Unit Unit × ChkSt :=
  chkStmts stmts initChkSt

/-! ### Checker claims -/

/-- The program `let x: integer = 1; { let x: integer = 2; }`. -/
def shadowProg : List Stmt :=
  [ .varDecl ⟨2, 0⟩ "x" (some "integer") (some (.litE ⟨2, 17⟩ "1")),
    .blockS ⟨3, 0⟩ [ .varDecl ⟨3, 2⟩ "x" (some "integer") (some (.litE ⟨3, 19⟩ "2")) ] ]

/-- C2: failing input.  `checker.py` defines no `visitBlock`, so a block's
statements run through the generic `visitChildren` in the same `Scope`; the
nested `let x` therefore hits `Scope.define`'s redeclaration check and the
checker emits a "Redeclaración en el mismo ámbito: x" diagnostic, contradicting
the claim (and the repo's own `ambito/sombras_ok` test) that shadowing across
blocks never produces a redeclaration diagnostic. -/
theorem c2_block_shadowing_rejected :
    chkProgram shadowProg =
      (.ok (), ⟨[[("x", .var .integer false true)]],
                ["[SemanticError] L3:C2 Redeclaración en el mismo ámbito: x"], 0, none⟩) := by
  decide

/-- Checker state whose scope holds a `float`-typed variable `f`. -/
def floatScopeSt : ChkSt := ⟨[[("f", Sym.var .float false true)]], [], 0, none⟩

/-- C3: counterexample.  Checking `"a" + 1` (a string term plus an integer
term, all operators `+`) yields type `string` and leaves the diagnostics
untouched — the claim that `string + integer` produces an error diagnostic is
false on `visitAdditiveExpr`. -/
theorem c3_string_plus_integer_no_error :
    chkExpr (.additive ⟨1, 0⟩ (.litE ⟨1, 0⟩ "\"a\"") [("+", .litE ⟨1, 6⟩ "1")]) floatScopeSt =
      (.ok (some .string), floatScopeSt) := by
  decide

/-- C3 as amended: `integer + integer` is `integer`; `integer + float` (either
order) is `float`; `string + string` is `string`; an additive chain containing
a string where every operator is `+` (e.g. `string + integer`) also yields
`string` with no diagnostic; a string with a non-`+` operator (e.g.
`string - integer`) is the error case, yielding `null` and one diagnostic. -/
theorem c3_additive_promotion :
    (chkExpr (.additive ⟨1, 0⟩ (.litE ⟨1, 0⟩ "1") [("+", .litE ⟨1, 4⟩ "2")]) floatScopeSt =
      (.ok (some .integer), floatScopeSt)) ∧
    (chkExpr (.additive ⟨1, 0⟩ (.litE ⟨1, 0⟩ "1") [("+", .identE ⟨1, 4⟩ "f")]) floatScopeSt =
      (.ok (some .float), floatScopeSt)) ∧
    (chkExpr (.additive ⟨1, 0⟩ (.identE ⟨1, 0⟩ "f") [("+", .litE ⟨1, 4⟩ "1")]) floatScopeSt =
      (.ok (some .float), floatScopeSt)) ∧
    (chkExpr (.additive ⟨1, 0⟩ (.litE ⟨1, 0⟩ "\"a\"") [("+", .litE ⟨1, 6⟩ "\"b\"")]) floatScopeSt =
      (.ok (some .string), floatScopeSt)) ∧
    (chkExpr (.additive ⟨1, 0⟩ (.litE ⟨1, 0⟩ "\"a\"") [("+", .litE ⟨1, 6⟩ "1")]) floatScopeSt =
      (.ok (some .string), floatScopeSt)) ∧
    (chkExpr (.additive ⟨1, 0⟩ (.litE ⟨1, 0⟩ "\"a\"") [("-", .litE ⟨1, 6⟩ "1")]) floatScopeSt =
      (.ok (some .null),
       ⟨floatScopeSt.scopes,
        ["[SemanticError] L1:C0 Operación aditiva con string solo permite '+'."], 0, none⟩)) := by
  refine ⟨?_, ?_, ?_, ?_, ?_, ?_⟩ <;> decide

/-- The program `function dead(): integer { return 1; let zzz: integer = 2; }`
(the repo's own `generales/codigo_muerto_err` test case). -/
def deadCodeProg : List Stmt :=
  [ .funcDecl ⟨2, 0⟩ "dead" [] (some "integer")
      [ .retS ⟨3, 2⟩ (some (.litE ⟨3, 9⟩ "1")),
        .varDecl ⟨4, 2⟩ "zzz" (some "integer") (some (.litE ⟨4, 21⟩ "2")) ] ]

/-- C5: failing input.  `_is_terminal_stmt` exists in `checker.py` but is never
called; a statement following a `return` in a block is visited normally and no
"unreachable code" diagnostic is ever produced: the checker accepts the dead
code with an empty diagnostic list, contradicting the claim (and the repo's own
test expecting "Código inalcanzable"). -/
theorem c5_no_unreachable_diagnostic :
    chkProgram deadCodeProg =
      (.ok (), ⟨[[("dead", .func .integer [])]], [], 0, none⟩) := by
  decide

/-- The program `let r: integer = true ? x : 1;` with `x` undeclared. -/
def crashProg : List Stmt :=
  [ .varDecl ⟨1, 0⟩ "r" (some "integer")
      (some (.ternary ⟨1, 17⟩ (.litE ⟨1, 17⟩ "true") (.identE ⟨1, 24⟩ "x") (.litE ⟨1, 28⟩ "1"))) ]

/-- C6: failing input.  When a ternary branch (or the left operand of `==`)
types as `None` because an identifier is undeclared, `visitTernaryExpr` /
`visitEqualityExpr` call `e1_t.is_compatible(...)` on `None` and the resulting
`AttributeError` escapes the whole checker run — the analysis does not degrade
to a diagnostic plus a fallback type, contradicting the claim that the checker
never raises across node boundaries. -/
theorem c6_checker_crashes_on_none_type :
    (chkProgram crashProg =
      (.error (), ⟨[[("r", .var .integer false true)]], [], 0, none⟩)) ∧
    (chkExpr (.eqE ⟨1, 0⟩ "==" (.identE ⟨1, 0⟩ "x") (.litE ⟨1, 5⟩ "1")) initChkSt =
      (.error (), initChkSt)) := by
  exact ⟨by decide, by decide⟩

/-! ## TAC program (`src/semantics/ir.py`) and code generator (`src/semantics/icg.py`)

The embedding of `CodeGen` fixes `resolver = None` (the constructor default),
so every symbol the generator touches is a fresh `VarSymbol(name, None)` of
width 4.  An expression visit returns either a temporary id (`Val.temp`) or
operand text (`Val.str`), exactly as the Python visitors return `int` or
`str`. -/

structure TACInstr where
  op : String
  a1 : Option String
  a2 : Option String
  res : Option String
  comment : String
deriving Repr, DecidableEq

inductive Val where
  | temp (i : Nat)
  | str (s : String)
deriving Repr, DecidableEq

structure CGState where
  code : List TACInstr
  temps : TempPool
  frames : List (String × FrameLayout)
  currentFunction : Option String
  funcRetIdx : Option Nat
deriving Repr, DecidableEq

/-- `TACProgram.emit`. -/
def emitI (s : CGState) (op : String) (a1 a2 res : Option String) : CGState :=
  { s with code := s.code ++ [⟨op, a1, a2, res, ""⟩] }

/-- `TACProgram.label` with an explicit name: emits `LABEL name`. -/
def emitLabel (s : CGState) (name : String) : CGState :=
  emitI s "LABEL" (some name) none none

/-- `CodeGen._fresh_label`: `L<count of LABEL instructions already emitted>`. -/
def freshLabel (code : List TACInstr) : String :=
  "L" ++ toString (code.filter (fun i => i.op == "LABEL")).length

/-- `CodeGen._temp_name`. -/
def tempName (i : Nat) : String := "t" ++ toString i

/-- `CodeGen._as_operand`. -/
def asOperand : Val → String
  | .temp i => tempName i
  | .str s => s

/-- `CodeGen._release_if_temp`. -/
def releaseIfTempS (s : CGState) : Val → CGState
  | .temp i => { s with temps := tempRelease s.temps i }
  | .str _ => s

/-- Read of `RuntimeLayouts.frames[n]` (created on first access). -/
def framesGet (fs : List (String × FrameLayout)) (n : String) : FrameLayout :=
  (fs.lookup n).getD (emptyFrame n)

/-- Store into the `RuntimeLayouts.frames` dict. -/
def framesSet (fs : List (String × FrameLayout)) (n : String) (fl : FrameLayout) :
    List (String × FrameLayout) :=
  if (fs.lookup n).isSome then
    fs.map (fun pr =>
      match pr.1 == n with
      | true => (n, fl)
      | false => pr)
  else fs ++ [(n, fl)]

/-- `self.layouts.frame(n)` followed by a mutation of the returned layout. -/
def frameModify (s : CGState) (n : String) (f : FrameLayout → FrameLayout) : CGState :=
  { s with frames := framesSet s.frames n (f (framesGet s.frames n)) }

/-- Opcode table of `CodeGen._emit_bin`. -/
def binOpName (op : String) : String :=
  if op == "+" then "ADD"
  else if op == "-" then "SUB"
  else if op == "*" then "MUL"
  else if op == "/" then "DIV"
  else if op == "%" then "MOD"
  else "BIN_" ++ op

/-- `CodeGen._emit_bin`. -/
def emitBin (s : CGState) (op : String) (left right : Val) : Nat × CGState :=
  let (idx, tp) := tempGet s.temps
  let s := { s with temps := tp }
  let s := emitI s (binOpName op) (some (asOperand left)) (some (asOperand right))
             (some (tempName idx))
  let s := releaseIfTempS s left
  let s := releaseIfTempS s right
  (idx, s)

/-- `CodeGen._emit_cmp`. -/
def emitCmp (s : CGState) (op : String) (left right : Val) : Nat × CGState :=
  let (idx, tp) := tempGet s.temps
  let s := { s with temps := tp }
  let s := emitI s ("CMP" ++ op) (some (asOperand left)) (some (asOperand right))
             (some (tempName idx))
  let s := releaseIfTempS s left
  let s := releaseIfTempS s right
  (idx, s)

/-- The left fold of `_emit_bin` over the operators of an additive chain. -/
def foldBin (acc : Val) (ops : List (String × Val)) (s : CGState) : Val × CGState :=
  match ops with
  | [] => (acc, s)
  | (op, rhs) :: t =>
      let (idx, s) := emitBin s op acc rhs
      foldBin (.temp idx) t s

/-- In-place mutation `prog.code[i].a1 = v` used by the `ENTER` backpatch. -/
def patchA1 : List TACInstr → Nat → String → List TACInstr
  | [], _, _ => []
  | i :: t, 0, v => { i with a1 := some v } :: t
  | i :: t, n + 1, v => i :: patchA1 t n v

mutual

/-- Expression visitors of `CodeGen` (`visitLiteralExpr`,
`visitIdentifierExpr`, `visitAdditiveExpr`, `visitRelationalExpr`,
`visitEqualityExpr`, `visitLogicalAndExpr`, `visitLogicalOrExpr`,
`visitTernaryExpr`). -/
def genExpr (e : Expr) (s : CGState) : Val × CGState :=
  match e, s with
  | .litE _ t, s => (.str t, s)
  | .identE _ n, s => (.str n, s)
  | .additive _ first rest, s =>
      let (v0, s) := genExpr first s
      let (vs, s) := genPairs rest s
      foldBin v0 vs s
  | .relE _ op l r, s =>
      let (v1, s) := genExpr l s
      let (v2, s) := genExpr r s
      let (idx, s) := emitCmp s op v1 v2
      (.temp idx, s)
  | .eqE _ op l r, s =>
      let (v1, s) := genExpr l s
      let (v2, s) := genExpr r s
      let (idx, s) := emitCmp s op v1 v2
      (.temp idx, s)
  | .andE _ l r, s =>
      let (resIdx, tp) := tempGet s.temps
      let s := { s with temps := tp }
      let res := tempName resIdx
      let lFalse := freshLabel s.code
      let lEnd := freshLabel s.code
      let (left, s) := genExpr l s
      let s := emitI s "IFZ" (some (asOperand left)) none (some lFalse)
      let s := releaseIfTempS s left
      let (right, s) := genExpr r s
      let s := emitI s "MOV" (some (asOperand right)) none (some res)
      let s := releaseIfTempS s right
      let s := emitI s "JUMP" (some lEnd) none none
      let s := emitLabel s lFalse
      let s := emitI s "MOV" (some "0") none (some res)
      let s := emitLabel s lEnd
      (.temp resIdx, s)
  | .orE _ l r, s =>
      let (resIdx, tp) := tempGet s.temps
      let s := { s with temps := tp }
      let res := tempName resIdx
      let lTrue := freshLabel s.code
      let lEnd := freshLabel s.code
      let (left, s) := genExpr l s
      let s := emitI s "IFNZ" (some (asOperand left)) none (some lTrue)
      let s := releaseIfTempS s left
      let (right, s) := genExpr r s
      let s := emitI s "MOV" (some (asOperand right)) none (some res)
      let s := releaseIfTempS s right
      let s := emitI s "JUMP" (some lEnd) none none
      let s := emitLabel s lTrue
      let s := emitI s "MOV" (some "1") none (some res)
      let s := emitLabel s lEnd
      (.temp resIdx, s)
  | .ternary _ c tE eE, s =>
      let (condV, s) := genExpr c s
      let lFalse := freshLabel s.code
      let lEnd := freshLabel s.code
      let s := emitI s "IFZ" (some (asOperand condV)) none (some lFalse)
      let s := releaseIfTempS s condV
      let (t1, s) := genExpr tE s
      let (resIdx, tp) := tempGet s.temps
      let s := { s with temps := tp }
      let res := tempName resIdx
      let s := emitI s "MOV" (some (asOperand t1)) none (some res)
      let s := releaseIfTempS s t1
      let s := emitI s "JUMP" (some lEnd) none none
      let s := emitLabel s lFalse
      let (t2, s) := genExpr eE s
      let s := emitI s "MOV" (some (asOperand t2)) none (some res)
      let s := releaseIfTempS s t2
      let s := emitLabel s lEnd
      (.temp resIdx, s)
termination_by structural e

/-- The term visits of an additive chain, in source order. -/
def genPairs (l : List (String × Expr)) (s : CGState) : List (String × Val) × CGState :=
  match l, s with
  | [], s => ([], s)
  | (op, e) :: t, s =>
      let (v, s) := genExpr e s
      let (vs, s) := genPairs t s
      ((op, v) :: vs, s)
termination_by structural l

end

/-- The final `RET` emission of `visitFunctionDeclaration`: a `RET t<i>`
releasing the return temporary when one was allocated, a bare `RET`
otherwise. -/
def genFuncRet (s : CGState) : CGState :=
  match s.funcRetIdx with
  | some i =>
      let s := emitI s "RET" (some (tempName i)) none none
      { s with temps := tempRelease s.temps i }
  | none => emitI s "RET" none none none

mutual

/-- Statement visitors of `CodeGen` (`visitExpressionStatement`,
`visitVariableDeclaration`, block dispatch through `visitChildren`,
`visitIfStatement`, `visitWhileStatement`, `visitReturnStatement`,
`visitFunctionDeclaration`). -/
def genStmt (st : Stmt) (s : CGState) : CGState :=
  match st, s with
  | .exprStmt _ e, s => (genExpr e s).2
  | .varDecl _ name _ initE, s =>
      let s :=
        match s.currentFunction with
        | some f => frameModify s f (fun fl => flAddLocal fl name 4)
        | none => s
      match initE with
      | none => s
      | some e =>
          let (v, s) := genExpr e s
          let s := emitI s "MOV" (some (asOperand v)) none (some name)
          releaseIfTempS s v
  | .blockS _ ss, s => genStmts ss s
  | .ifS _ c tb eb, s =>
      let (cond, s) := genExpr c s
      let lElse := freshLabel s.code
      let lEnd := freshLabel s.code
      let s := emitI s "IFZ" (some (asOperand cond)) none (some lElse)
      let s := releaseIfTempS s cond
      let s := genStmts tb s
      let s := emitI s "JUMP" (some lEnd) none none
      let s := emitLabel s lElse
      let s :=
        match eb with
        | some el => genStmts el s
        | none => s
      emitLabel s lEnd
  | .whileS _ c body, s =>
      let lCond := freshLabel s.code
      let lEnd := freshLabel s.code
      let s := emitLabel s lCond
      let (cond, s) := genExpr c s
      let s := emitI s "IFZ" (some (asOperand cond)) none (some lEnd)
      let s := releaseIfTempS s cond
      let s := genStmts body s
      let s := emitI s "JUMP" (some lCond) none none
      emitLabel s lEnd
  | .retS _ e, s =>
      match e with
      | some ex =>
          let (v, s) := genExpr ex s
          let (retIdx, s) :=
            match s.funcRetIdx with
            | none =>
                let (i, tp) := tempGet s.temps
                (i, { s with temps := tp, funcRetIdx := some i })
            | some i => (i, s)
          let s := emitI s "MOV" (some (asOperand v)) none (some (tempName retIdx))
          let s := releaseIfTempS s v
          emitI s "JUMP" (some ((s.currentFunction.getD "None") ++ "_exit")) none none
      | none =>
          emitI s "JUMP" (some ((s.currentFunction.getD "None") ++ "_exit")) none none
  | .funcDecl _ name params _ body, s =>
      let s := { s with currentFunction := some name }
      let s := emitLabel s ("func_" ++ name)
      let s := { s with frames := framesSet s.frames name (framesGet s.frames name) }
      let s := params.foldl (fun s pr => frameModify s name (fun fl => flAddParam fl pr.1)) s
      let enterIdx := s.code.length
      let s := emitI s "ENTER" (some "0") none none
      let s := { s with funcRetIdx := none }
      let s := genStmts body s
      let s := frameModify s name flFinalize
      let s := { s with
        code := patchA1 s.code enterIdx (toString (framesGet s.frames name).frameSize) }
      let s := emitLabel s (name ++ "_exit")
      let s := emitI s "LEAVE" none none none
      let s := genFuncRet s
      { s with currentFunction := none, funcRetIdx := none }
termination_by structural st

/-- Statement sequencing (`visitProgram` loop / `visitChildren` on blocks). -/
def genStmts (l : List Stmt) (s : CGState) : CGState :=
  match l, s with
  | [], s => s
  | st :: t, s => genStmts t (genStmt st s)
termination_by structural l

end

/-- Fresh `CodeGen()` state. -/
def initCG : CGState := ⟨[], ⟨[], 0⟩, [], none, none⟩

/-! ### State-threading lemmas for the generator -/

@[simp] theorem emitI_code (s : CGState) (op : String) (a1 a2 res : Option String) :
    (emitI s op a1 a2 res).code = s.code ++ [⟨op, a1, a2, res, ""⟩] := rfl

@[simp] theorem emitI_frames (s : CGState) (op : String) (a1 a2 res : Option String) :
    (emitI s op a1 a2 res).frames = s.frames := rfl

@[simp] theorem emitI_currentFunction (s : CGState) (op : String) (a1 a2 res : Option String) :
    (emitI s op a1 a2 res).currentFunction = s.currentFunction := rfl

@[simp] theorem emitI_temps (s : CGState) (op : String) (a1 a2 res : Option String) :
    (emitI s op a1 a2 res).temps = s.temps := rfl

@[simp] theorem emitLabel_code (s : CGState) (n : String) :
    (emitLabel s n).code = s.code ++ [⟨"LABEL", some n, none, none, ""⟩] := rfl

@[simp] theorem emitLabel_frames (s : CGState) (n : String) :
    (emitLabel s n).frames = s.frames := rfl

@[simp] theorem emitLabel_currentFunction (s : CGState) (n : String) :
    (emitLabel s n).currentFunction = s.currentFunction := rfl

@[simp] theorem releaseIfTempS_code (s : CGState) (v : Val) :
    (releaseIfTempS s v).code = s.code := by cases v <;> rfl

@[simp] theorem releaseIfTempS_frames (s : CGState) (v : Val) :
    (releaseIfTempS s v).frames = s.frames := by cases v <;> rfl

@[simp] theorem releaseIfTempS_currentFunction (s : CGState) (v : Val) :
    (releaseIfTempS s v).currentFunction = s.currentFunction := by cases v <;> rfl

@[simp] theorem emitBin_code (s : CGState) (op : String) (l r : Val) :
    (emitBin s op l r).2.code =
      s.code ++ [⟨binOpName op, some (asOperand l), some (asOperand r),
                  some (tempName (tempGet s.temps).1), ""⟩] := by
  unfold emitBin
  rcases h : tempGet s.temps with ⟨idx, tp⟩
  simp [h]

@[simp] theorem emitBin_frames (s : CGState) (op : String) (l r : Val) :
    (emitBin s op l r).2.frames = s.frames := by
  unfold emitBin
  rcases h : tempGet s.temps with ⟨idx, tp⟩
  simp [h]

@[simp] theorem emitBin_currentFunction (s : CGState) (op : String) (l r : Val) :
    (emitBin s op l r).2.currentFunction = s.currentFunction := by
  unfold emitBin
  rcases h : tempGet s.temps with ⟨idx, tp⟩
  simp [h]

@[simp] theorem emitCmp_code (s : CGState) (op : String) (l r : Val) :
    (emitCmp s op l r).2.code =
      s.code ++ [⟨"CMP" ++ op, some (asOperand l), some (asOperand r),
                  some (tempName (tempGet s.temps).1), ""⟩] := by
  unfold emitCmp
  rcases h : tempGet s.temps with ⟨idx, tp⟩
  simp [h]

@[simp] theorem emitCmp_frames (s : CGState) (op : String) (l r : Val) :
    (emitCmp s op l r).2.frames = s.frames := by
  unfold emitCmp
  rcases h : tempGet s.temps with ⟨idx, tp⟩
  simp [h]

@[simp] theorem emitCmp_currentFunction (s : CGState) (op : String) (l r : Val) :
    (emitCmp s op l r).2.currentFunction = s.currentFunction := by
  unfold emitCmp
  rcases h : tempGet s.temps with ⟨idx, tp⟩
  simp [h]

theorem foldBin_code_ext (ops : List (String × Val)) :
    ∀ (acc : Val) (s : CGState), ∃ d, (foldBin acc ops s).2.code = s.code ++ d := by
  induction ops with
  | nil => exact fun acc s => ⟨[], by simp [foldBin]⟩
  | cons p t ih =>
      intro acc s
      rcases p with ⟨op, rhs⟩
      rcases hb : emitBin s op acc rhs with ⟨idx, s1⟩
      obtain ⟨d, hd⟩ := ih (.temp idx) s1
      refine ⟨[⟨binOpName op, some (asOperand acc), some (asOperand rhs),
               some (tempName (tempGet s.temps).1), ""⟩] ++ d, ?_⟩
      have hcode : s1.code = s.code ++ [⟨binOpName op, some (asOperand acc), some (asOperand rhs),
          some (tempName (tempGet s.temps).1), ""⟩] := by
        have := emitBin_code s op acc rhs
        rw [hb] at this
        exact this
      simp only [foldBin, hb]
      rw [hd, hcode, List.append_assoc]

theorem foldBin_frames (ops : List (String × Val)) :
    ∀ (acc : Val) (s : CGState), (foldBin acc ops s).2.frames = s.frames := by
  induction ops with
  | nil => exact fun acc s => by simp [foldBin]
  | cons p t ih =>
      intro acc s
      rcases p with ⟨op, rhs⟩
      rcases hb : emitBin s op acc rhs with ⟨idx, s1⟩
      have h1 : s1.frames = s.frames := by
        have := emitBin_frames s op acc rhs
        rw [hb] at this
        exact this
      simp only [foldBin, hb]
      rw [ih (.temp idx) s1, h1]

theorem foldBin_currentFunction (ops : List (String × Val)) :
    ∀ (acc : Val) (s : CGState), (foldBin acc ops s).2.currentFunction = s.currentFunction := by
  induction ops with
  | nil => exact fun acc s => by simp [foldBin]
  | cons p t ih =>
      intro acc s
      rcases p with ⟨op, rhs⟩
      rcases hb : emitBin s op acc rhs with ⟨idx, s1⟩
      have h1 : s1.currentFunction = s.currentFunction := by
        have := emitBin_currentFunction s op acc rhs
        rw [hb] at this
        exact this
      simp only [foldBin, hb]
      rw [ih (.temp idx) s1, h1]

/-- `CodeGen.generate` on a program node (`visitProgram`). -/
def genProgram (stmts : List Stmt) : CGState :=
  let s := emitLabel initCG "program_start"
  let s := genStmts stmts s
  emitLabel s "program_end"

/-- Expression generation touches neither the frame registry nor the current
function marker. -/
theorem genExpr_frames_cf (e : Expr) (s : CGState) :
    (genExpr e s).2.frames = s.frames ∧
    (genExpr e s).2.currentFunction = s.currentFunction := by
  refine genExpr.induct
    (fun e s => (genExpr e s).2.frames = s.frames ∧
      (genExpr e s).2.currentFunction = s.currentFunction)
    (fun l s => (genPairs l s).2.frames = s.frames ∧
      (genPairs l s).2.currentFunction = s.currentFunction)
    ?_ ?_ ?_ ?_ ?_ ?_ ?_ ?_ ?_ ?_ e s
  · intro pos t s
    exact ⟨rfl, rfl⟩
  · intro pos n s
    exact ⟨rfl, rfl⟩
  · intro pos first rest s v0 s1 h1 vs s2 h2 ih1 ih2
    rw [h1] at ih1
    rw [h2] at ih2
    simp only [genExpr, h1, h2]
    rw [foldBin_frames, foldBin_currentFunction, ih2.1, ih2.2, ih1.1, ih1.2]
    exact ⟨rfl, rfl⟩
  · intro pos op l r s v1 s1 h1 v2 s2 h2 idx s3 h3 ih1 ih2
    rw [h1] at ih1
    rw [h2] at ih2
    have e3f := emitCmp_frames s2 op v1 v2
    have e3c := emitCmp_currentFunction s2 op v1 v2
    rw [h3] at e3f e3c
    simp only [genExpr, h1, h2, h3]
    rw [e3f, e3c, ih2.1, ih2.2, ih1.1, ih1.2]
    exact ⟨rfl, rfl⟩
  · intro pos op l r s v1 s1 h1 v2 s2 h2 idx s3 h3 ih1 ih2
    rw [h1] at ih1
    rw [h2] at ih2
    have e3f := emitCmp_frames s2 op v1 v2
    have e3c := emitCmp_currentFunction s2 op v1 v2
    rw [h3] at e3f e3c
    simp only [genExpr, h1, h2, h3]
    rw [e3f, e3c, ih2.1, ih2.2, ih1.1, ih1.2]
    exact ⟨rfl, rfl⟩
  · intro pos l r s idx tp hget s1 lFalse v1 s2 h1 s3 s4 v2 s5 h2 ih1 ih2
    rw [h1] at ih1
    rw [h2] at ih2
    have hf : s5.frames = s.frames := by
      have a1 : s5.frames = s4.frames := ih2.1
      have a2 : s4.frames = s2.frames :=
        (releaseIfTempS_frames s3 v1).trans (emitI_frames s2 "IFZ" _ _ _)
      have a3 : s2.frames = s.frames := ih1.1
      exact a1.trans (a2.trans a3)
    have hc : s5.currentFunction = s.currentFunction := by
      have a1 : s5.currentFunction = s4.currentFunction := ih2.2
      have a2 : s4.currentFunction = s2.currentFunction :=
        (releaseIfTempS_currentFunction s3 v1).trans (emitI_currentFunction s2 "IFZ" _ _ _)
      have a3 : s2.currentFunction = s.currentFunction := ih1.2
      exact a1.trans (a2.trans a3)
    simp only [genExpr, hget, h1, h2]
    simp only [emitLabel_frames, emitI_frames, releaseIfTempS_frames,
      emitLabel_currentFunction, emitI_currentFunction, releaseIfTempS_currentFunction]
    exact ⟨hf, hc⟩
  · intro pos l r s idx tp hget s1 lTrue v1 s2 h1 s3 s4 v2 s5 h2 ih1 ih2
    rw [h1] at ih1
    rw [h2] at ih2
    have hf : s5.frames = s.frames := by
      have a1 : s5.frames = s4.frames := ih2.1
      have a2 : s4.frames = s2.frames :=
        (releaseIfTempS_frames s3 v1).trans (emitI_frames s2 "IFNZ" _ _ _)
      have a3 : s2.frames = s.frames := ih1.1
      exact a1.trans (a2.trans a3)
    have hc : s5.currentFunction = s.currentFunction := by
      have a1 : s5.currentFunction = s4.currentFunction := ih2.2
      have a2 : s4.currentFunction = s2.currentFunction :=
        (releaseIfTempS_currentFunction s3 v1).trans (emitI_currentFunction s2 "IFNZ" _ _ _)
      have a3 : s2.currentFunction = s.currentFunction := ih1.2
      exact a1.trans (a2.trans a3)
    simp only [genExpr, hget, h1, h2]
    simp only [emitLabel_frames, emitI_frames, releaseIfTempS_frames,
      emitLabel_currentFunction, emitI_currentFunction, releaseIfTempS_currentFunction]
    exact ⟨hf, hc⟩
  · intro pos c tE eE s v0 s1 h0 lFalse lEnd s3 s4 v1 s5 h1 idx tp hget s6 res s7 s8 s9 s10 v2 s11 h2 ih0 ih1 ih2
    rw [h0] at ih0
    rw [h1] at ih1
    rw [h2] at ih2
    have hf : s11.frames = s.frames := by
      have a1 : s11.frames = s10.frames := ih2.1
      have a2 : s10.frames = s5.frames :=
        (emitLabel_frames s9 lFalse).trans ((emitI_frames s8 "JUMP" _ _ _).trans
          ((releaseIfTempS_frames s7 v1).trans ((emitI_frames s6 "MOV" _ _ _).trans rfl)))
      have a3 : s5.frames = s4.frames := ih1.1
      have a4 : s4.frames = s1.frames :=
        (releaseIfTempS_frames s3 v0).trans (emitI_frames s1 "IFZ" _ _ _)
      have a5 : s1.frames = s.frames := ih0.1
      exact a1.trans (a2.trans (a3.trans (a4.trans a5)))
    have hc : s11.currentFunction = s.currentFunction := by
      have a1 : s11.currentFunction = s10.currentFunction := ih2.2
      have a2 : s10.currentFunction = s5.currentFunction :=
        (emitLabel_currentFunction s9 lFalse).trans
          ((emitI_currentFunction s8 "JUMP" _ _ _).trans
            ((releaseIfTempS_currentFunction s7 v1).trans
              ((emitI_currentFunction s6 "MOV" _ _ _).trans rfl)))
      have a3 : s5.currentFunction = s4.currentFunction := ih1.2
      have a4 : s4.currentFunction = s1.currentFunction :=
        (releaseIfTempS_currentFunction s3 v0).trans (emitI_currentFunction s1 "IFZ" _ _ _)
      have a5 : s1.currentFunction = s.currentFunction := ih0.2
      exact a1.trans (a2.trans (a3.trans (a4.trans a5)))
    simp only [genExpr, h0, hget, h1, h2]
    simp only [emitLabel_frames, emitI_frames, releaseIfTempS_frames,
      emitLabel_currentFunction, emitI_currentFunction, releaseIfTempS_currentFunction]
    exact ⟨hf, hc⟩
  · intro s
    exact ⟨rfl, rfl⟩
  · intro op e t s v s1 h1 vs s2 h2 ih1 ih2
    rw [h1] at ih1
    rw [h2] at ih2
    simp only [genPairs, h1, h2]
    rw [ih2.1, ih2.2, ih1.1, ih1.2]
    exact ⟨rfl, rfl⟩

/-- Expression generation only appends TAC instructions. -/
theorem genExpr_code_ext (e : Expr) (s : CGState) :
    ∃ d, (genExpr e s).2.code = s.code ++ d := by
  refine genExpr.induct
    (fun e s => ∃ d, (genExpr e s).2.code = s.code ++ d)
    (fun l s => ∃ d, (genPairs l s).2.code = s.code ++ d)
    ?_ ?_ ?_ ?_ ?_ ?_ ?_ ?_ ?_ ?_ e s
  · intro pos t s
    exact ⟨[], by simp [genExpr]⟩
  · intro pos n s
    exact ⟨[], by simp [genExpr]⟩
  · intro pos first rest s v0 s1 h1 vs s2 h2 ih1 ih2
    rw [h1] at ih1
    rw [h2] at ih2
    obtain ⟨d1, hd1⟩ := ih1
    obtain ⟨d2, hd2⟩ := ih2
    obtain ⟨d3, hd3⟩ := foldBin_code_ext vs v0 s2
    refine ⟨d1 ++ d2 ++ d3, ?_⟩
    simp only [genExpr, h1, h2]
    rw [hd3, hd2, hd1]
    simp [List.append_assoc]
  · intro pos op l r s v1 s1 h1 v2 s2 h2 idx s3 h3 ih1 ih2
    rw [h1] at ih1
    rw [h2] at ih2
    obtain ⟨d1, hd1⟩ := ih1
    obtain ⟨d2, hd2⟩ := ih2
    have e3 := emitCmp_code s2 op v1 v2
    rw [h3] at e3
    refine ⟨d1 ++ d2 ++ [⟨"CMP" ++ op, some (asOperand v1), some (asOperand v2),
      some (tempName (tempGet s2.temps).1), ""⟩], ?_⟩
    simp only [genExpr, h1, h2, h3]
    rw [e3, hd2, hd1]
    simp [List.append_assoc]
  · intro pos op l r s v1 s1 h1 v2 s2 h2 idx s3 h3 ih1 ih2
    rw [h1] at ih1
    rw [h2] at ih2
    obtain ⟨d1, hd1⟩ := ih1
    obtain ⟨d2, hd2⟩ := ih2
    have e3 := emitCmp_code s2 op v1 v2
    rw [h3] at e3
    refine ⟨d1 ++ d2 ++ [⟨"CMP" ++ op, some (asOperand v1), some (asOperand v2),
      some (tempName (tempGet s2.temps).1), ""⟩], ?_⟩
    simp only [genExpr, h1, h2, h3]
    rw [e3, hd2, hd1]
    simp [List.append_assoc]
  · intro pos l r s idx tp hget s1 lFalse v1 s2 h1 s3 s4 v2 s5 h2 ih1 ih2
    rw [h1] at ih1
    rw [h2] at ih2
    obtain ⟨d1, hd1⟩ := ih1
    obtain ⟨d2, hd2⟩ := ih2
    have h1code : s1.code = s.code := rfl
    have h4 : s4.code = s2.code ++ [⟨"IFZ", some (asOperand v1), none, some lFalse, ""⟩] :=
      (releaseIfTempS_code s3 v1).trans (emitI_code s2 "IFZ" _ _ _)
    refine ⟨d1 ++ [⟨"IFZ", some (asOperand v1), none, some lFalse, ""⟩] ++ d2 ++
      [⟨"MOV", some (asOperand v2), none, some (tempName idx), ""⟩,
       ⟨"JUMP", some lFalse, none, none, ""⟩,
       ⟨"LABEL", some lFalse, none, none, ""⟩,
       ⟨"MOV", some "0", none, some (tempName idx), ""⟩,
       ⟨"LABEL", some lFalse, none, none, ""⟩], ?_⟩
    simp only [genExpr, hget, h1, h2]
    simp only [emitLabel_code, emitI_code, releaseIfTempS_code]
    rw [hd2, h4, hd1, h1code]
    simp [List.append_assoc]
  · intro pos l r s idx tp hget s1 lTrue v1 s2 h1 s3 s4 v2 s5 h2 ih1 ih2
    rw [h1] at ih1
    rw [h2] at ih2
    obtain ⟨d1, hd1⟩ := ih1
    obtain ⟨d2, hd2⟩ := ih2
    have h1code : s1.code = s.code := rfl
    have h4 : s4.code = s2.code ++ [⟨"IFNZ", some (asOperand v1), none, some lTrue, ""⟩] :=
      (releaseIfTempS_code s3 v1).trans (emitI_code s2 "IFNZ" _ _ _)
    refine ⟨d1 ++ [⟨"IFNZ", some (asOperand v1), none, some lTrue, ""⟩] ++ d2 ++
      [⟨"MOV", some (asOperand v2), none, some (tempName idx), ""⟩,
       ⟨"JUMP", some lTrue, none, none, ""⟩,
       ⟨"LABEL", some lTrue, none, none, ""⟩,
       ⟨"MOV", some "1", none, some (tempName idx), ""⟩,
       ⟨"LABEL", some lTrue, none, none, ""⟩], ?_⟩
    simp only [genExpr, hget, h1, h2]
    simp only [emitLabel_code, emitI_code, releaseIfTempS_code]
    rw [hd2, h4, hd1, h1code]
    simp [List.append_assoc]
  · intro pos c tE eE s v0 s1 h0 lFalse lEnd s3 s4 v1 s5 h1 idx tp hget s6 res s7 s8 s9 s10 v2 s11 h2 ih0 ih1 ih2
    rw [h0] at ih0
    rw [h1] at ih1
    rw [h2] at ih2
    obtain ⟨d0, hd0⟩ := ih0
    obtain ⟨d1, hd1⟩ := ih1
    obtain ⟨d2, hd2⟩ := ih2
    have h4 : s4.code = s1.code ++ [⟨"IFZ", some (asOperand v0), none, some lFalse, ""⟩] :=
      (releaseIfTempS_code s3 v0).trans (emitI_code s1 "IFZ" _ _ _)
    have h10 : s10.code = s5.code ++
        [⟨"MOV", some (asOperand v1), none, some res, ""⟩,
         ⟨"JUMP", some lEnd, none, none, ""⟩,
         ⟨"LABEL", some lFalse, none, none, ""⟩] := by
      have b1 : s10.code = s9.code ++ [⟨"LABEL", some lFalse, none, none, ""⟩] :=
        emitLabel_code s9 lFalse
      have b2 : s9.code = s8.code ++ [⟨"JUMP", some lEnd, none, none, ""⟩] :=
        emitI_code s8 "JUMP" _ _ _
      have b3 : s8.code = s7.code := releaseIfTempS_code s7 v1
      have b4 : s7.code = s5.code ++ [⟨"MOV", some (asOperand v1), none, some res, ""⟩] :=
        emitI_code s6 "MOV" _ _ _
      rw [b1, b2, b3, b4]
      simp [List.append_assoc]
    refine ⟨d0 ++ [⟨"IFZ", some (asOperand v0), none, some lFalse, ""⟩] ++ d1 ++
      [⟨"MOV", some (asOperand v1), none, some res, ""⟩,
       ⟨"JUMP", some lEnd, none, none, ""⟩,
       ⟨"LABEL", some lFalse, none, none, ""⟩] ++ d2 ++
      [⟨"MOV", some (asOperand v2), none, some res, ""⟩,
       ⟨"LABEL", some lEnd, none, none, ""⟩], ?_⟩
    simp only [genExpr, h0, hget, h1, h2]
    simp only [emitLabel_code, emitI_code, releaseIfTempS_code]
    rw [hd2, h10, hd1, h4, hd0]
    simp only [List.append_assoc, List.cons_append, List.nil_append, List.append_cancel_left_eq]
    have hs1 : s1.code = s.code ++ d0 := hd0
    rw [← hs1]
  · intro s
    exact ⟨[], by simp [genPairs]⟩
  · intro op e t s v s1 h1 vs s2 h2 ih1 ih2
    rw [h1] at ih1
    rw [h2] at ih2
    obtain ⟨d1, hd1⟩ := ih1
    obtain ⟨d2, hd2⟩ := ih2
    refine ⟨d1 ++ d2, ?_⟩
    simp only [genPairs, h1, h2]
    rw [hd2, hd1]
    simp [List.append_assoc]

/-- Recogniser for the three short-circuit expression forms. -/
def isShortCircuitB : Expr → Bool
  | .andE _ _ _ => true
  | .orE _ _ _ => true
  | .ternary _ _ _ _ => true
  | _ => false

/-- Lowering any `&&`/`||`/ternary node appends a block of TAC that contains a
conditional jump (`IFZ`/`IFNZ`), an unconditional `JUMP`, and a `MOV` into the
freshly allocated merge temporary that the node returns. -/
theorem genExpr_shortcircuit (e : Expr) (s : CGState) :
    ∃ d, (genExpr e s).2.code = s.code ++ d ∧
      (isShortCircuitB e = true →
        ∃ k, (genExpr e s).1 = .temp k ∧
          (∃ i ∈ d, i.op = "IFZ" ∨ i.op = "IFNZ") ∧
          (∃ i ∈ d, i.op = "JUMP") ∧
          (∃ i ∈ d, i.op = "MOV" ∧ i.res = some (tempName k))) := by
  refine genExpr.induct
    (fun e s => ∃ d, (genExpr e s).2.code = s.code ++ d ∧
      (isShortCircuitB e = true →
        ∃ k, (genExpr e s).1 = .temp k ∧
          (∃ i ∈ d, i.op = "IFZ" ∨ i.op = "IFNZ") ∧
          (∃ i ∈ d, i.op = "JUMP") ∧
          (∃ i ∈ d, i.op = "MOV" ∧ i.res = some (tempName k))))
    (fun l s => True)
    ?_ ?_ ?_ ?_ ?_ ?_ ?_ ?_ ?_ ?_ e s
  · intro pos t s
    exact ⟨[], by simp [genExpr], by intro h; simp [isShortCircuitB] at h⟩
  · intro pos n s
    exact ⟨[], by simp [genExpr], by intro h; simp [isShortCircuitB] at h⟩
  · intro pos first rest s v0 s1 h1 vs s2 h2 _ _
    obtain ⟨d1, hd1⟩ := genExpr_code_ext first s
    rw [h1] at hd1
    obtain ⟨d2, hd2⟩ := genExpr_code_ext (.additive pos first rest) s
    exact ⟨d2, hd2, by intro h; simp [isShortCircuitB] at h⟩
  · intro pos op l r s v1 s1 h1 v2 s2 h2 idx s3 h3 _ _
    obtain ⟨d2, hd2⟩ := genExpr_code_ext (.relE pos op l r) s
    exact ⟨d2, hd2, by intro h; simp [isShortCircuitB] at h⟩
  · intro pos op l r s v1 s1 h1 v2 s2 h2 idx s3 h3 _ _
    obtain ⟨d2, hd2⟩ := genExpr_code_ext (.eqE pos op l r) s
    exact ⟨d2, hd2, by intro h; simp [isShortCircuitB] at h⟩
  · intro pos l r s idx tp hget s1 lFalse v1 s2 h1 s3 s4 v2 s5 h2 _ _
    obtain ⟨d1, hd1⟩ := genExpr_code_ext l s1
    rw [h1] at hd1
    obtain ⟨d2, hd2⟩ := genExpr_code_ext r s4
    rw [h2] at hd2
    have h1code : s1.code = s.code := rfl
    have h4 : s4.code = s2.code ++ [⟨"IFZ", some (asOperand v1), none, some lFalse, ""⟩] :=
      (releaseIfTempS_code s3 v1).trans (emitI_code s2 "IFZ" _ _ _)
    refine ⟨d1 ++ [⟨"IFZ", some (asOperand v1), none, some lFalse, ""⟩] ++ d2 ++
      [⟨"MOV", some (asOperand v2), none, some (tempName idx), ""⟩,
       ⟨"JUMP", some lFalse, none, none, ""⟩,
       ⟨"LABEL", some lFalse, none, none, ""⟩,
       ⟨"MOV", some "0", none, some (tempName idx), ""⟩,
       ⟨"LABEL", some lFalse, none, none, ""⟩], ?_, ?_⟩
    · simp only [genExpr, hget, h1, h2]
      simp only [emitLabel_code, emitI_code, releaseIfTempS_code]
      rw [hd2, h4, hd1, h1code]
      simp [List.append_assoc]
    · intro _
      refine ⟨idx, ?_, ?_, ?_, ?_⟩
      · simp only [genExpr, hget, h1, h2]
      · exact ⟨⟨"IFZ", some (asOperand v1), none, some lFalse, ""⟩, by simp, Or.inl rfl⟩
      · exact ⟨⟨"JUMP", some lFalse, none, none, ""⟩, by simp, rfl⟩
      · exact ⟨⟨"MOV", some "0", none, some (tempName idx), ""⟩, by simp, rfl, rfl⟩
  · intro pos l r s idx tp hget s1 lTrue v1 s2 h1 s3 s4 v2 s5 h2 _ _
    obtain ⟨d1, hd1⟩ := genExpr_code_ext l s1
    rw [h1] at hd1
    obtain ⟨d2, hd2⟩ := genExpr_code_ext r s4
    rw [h2] at hd2
    have h1code : s1.code = s.code := rfl
    have h4 : s4.code = s2.code ++ [⟨"IFNZ", some (asOperand v1), none, some lTrue, ""⟩] :=
      (releaseIfTempS_code s3 v1).trans (emitI_code s2 "IFNZ" _ _ _)
    refine ⟨d1 ++ [⟨"IFNZ", some (asOperand v1), none, some lTrue, ""⟩] ++ d2 ++
      [⟨"MOV", some (asOperand v2), none, some (tempName idx), ""⟩,
       ⟨"JUMP", some lTrue, none, none, ""⟩,
       ⟨"LABEL", some lTrue, none, none, ""⟩,
       ⟨"MOV", some "1", none, some (tempName idx), ""⟩,
       ⟨"LABEL", some lTrue, none, none, ""⟩], ?_, ?_⟩
    · simp only [genExpr, hget, h1, h2]
      simp only [emitLabel_code, emitI_code, releaseIfTempS_code]
      rw [hd2, h4, hd1, h1code]
      simp [List.append_assoc]
    · intro _
      refine ⟨idx, ?_, ?_, ?_, ?_⟩
      · simp only [genExpr, hget, h1, h2]
      · exact ⟨⟨"IFNZ", some (asOperand v1), none, some lTrue, ""⟩, by simp, Or.inr rfl⟩
      · exact ⟨⟨"JUMP", some lTrue, none, none, ""⟩, by simp, rfl⟩
      · exact ⟨⟨"MOV", some "1", none, some (tempName idx), ""⟩, by simp, rfl, rfl⟩
  · intro pos c tE eE s v0 s1 h0 lFalse lEnd s3 s4 v1 s5 h1 idx tp hget s6 res s7 s8 s9 s10 v2 s11 h2 _ _ _
    obtain ⟨d0, hd0⟩ := genExpr_code_ext c s
    rw [h0] at hd0
    obtain ⟨d1, hd1⟩ := genExpr_code_ext tE s4
    rw [h1] at hd1
    obtain ⟨d2, hd2⟩ := genExpr_code_ext eE s10
    rw [h2] at hd2
    have h4 : s4.code = s1.code ++ [⟨"IFZ", some (asOperand v0), none, some lFalse, ""⟩] :=
      (releaseIfTempS_code s3 v0).trans (emitI_code s1 "IFZ" _ _ _)
    have h10 : s10.code = s5.code ++
        [⟨"MOV", some (asOperand v1), none, some res, ""⟩,
         ⟨"JUMP", some lEnd, none, none, ""⟩,
         ⟨"LABEL", some lFalse, none, none, ""⟩] := by
      have b1 : s10.code = s9.code ++ [⟨"LABEL", some lFalse, none, none, ""⟩] :=
        emitLabel_code s9 lFalse
      have b2 : s9.code = s8.code ++ [⟨"JUMP", some lEnd, none, none, ""⟩] :=
        emitI_code s8 "JUMP" _ _ _
      have b3 : s8.code = s7.code := releaseIfTempS_code s7 v1
      have b4 : s7.code = s5.code ++ [⟨"MOV", some (asOperand v1), none, some res, ""⟩] :=
        emitI_code s6 "MOV" _ _ _
      rw [b1, b2, b3, b4]
      simp [List.append_assoc]
    refine ⟨d0 ++ [⟨"IFZ", some (asOperand v0), none, some lFalse, ""⟩] ++ d1 ++
      [⟨"MOV", some (asOperand v1), none, some res, ""⟩,
       ⟨"JUMP", some lEnd, none, none, ""⟩,
       ⟨"LABEL", some lFalse, none, none, ""⟩] ++ d2 ++
      [⟨"MOV", some (asOperand v2), none, some res, ""⟩,
       ⟨"LABEL", some lEnd, none, none, ""⟩], ?_, ?_⟩
    · simp only [genExpr, h0, hget, h1, h2]
      simp only [emitLabel_code, emitI_code, releaseIfTempS_code]
      rw [hd2, h10, hd1, h4, hd0]
      simp only [List.append_assoc, List.cons_append, List.nil_append, List.append_cancel_left_eq]
      have hs1 : s1.code = s.code ++ d0 := hd0
      rw [← hs1]
    · intro _
      refine ⟨idx, ?_, ?_, ?_, ?_⟩
      · simp only [genExpr, h0, hget, h1, h2]
      · exact ⟨⟨"IFZ", some (asOperand v0), none, some lFalse, ""⟩, by simp, Or.inl rfl⟩
      · exact ⟨⟨"JUMP", some lEnd, none, none, ""⟩, by simp, rfl⟩
      · refine ⟨⟨"MOV", some (asOperand v2), none, some res, ""⟩, by simp, rfl, ?_⟩
        rfl
  · exact fun s => trivial
  · intro op e t s v s1 h1 vs s2 h2 _ _
    exact trivial

/-- C1: failing input.  `CodeGen._fresh_label` names a label by counting the
`LABEL` instructions already emitted, and `visitIfStatement` requests its else
label and its end label back to back with no emission in between — so both
labels of the single if-statement `if (1) { }` are named `L0`: the lowered code
jumps to `L0` for both targets and defines `LABEL L0` twice.  The claim that
every fresh label is distinct from every previously generated one (in
particular that the two labels of one if-statement are distinct) is false;
`TACProgram._label_counter`, the monotonic counter of `ir.py`, is never used by
`_fresh_label`. -/
theorem c1_if_statement_label_reuse :
    (genStmt (.ifS ⟨1, 0⟩ (.litE ⟨1, 4⟩ "1") [] none) initCG).code =
      [⟨"IFZ", some "1", none, some "L0", ""⟩,
       ⟨"JUMP", some "L0", none, none, ""⟩,
       ⟨"LABEL", some "L0", none, none, ""⟩,
       ⟨"LABEL", some "L0", none, none, ""⟩] := by
  decide

/-- The expression `(a < b) && (b != 0) ? a : b`. -/
def shortCircuitExample : Expr :=
  .ternary ⟨1, 0⟩
    (.andE ⟨1, 0⟩ (.relE ⟨1, 1⟩ "<" (.identE ⟨1, 1⟩ "a") (.identE ⟨1, 5⟩ "b"))
                  (.eqE ⟨1, 12⟩ "!=" (.identE ⟨1, 12⟩ "b") (.litE ⟨1, 17⟩ "0")))
    (.identE ⟨1, 24⟩ "a") (.identE ⟨1, 28⟩ "b")

/-- C7: lowering any `&&`, `||` or ternary node emits at least one conditional
jump (`IFZ`/`IFNZ`), at least one unconditional `JUMP`, and at least one `MOV`
into the freshly allocated merge temporary that the node returns; compiling
`(a < b) && (b != 0) ? a : b` yields IR whose result is the merge temporary
`t0` and which contains an `IFZ` and a `MOV` into `t0`. -/
theorem c7_short_circuit_lowering :
    (∀ (p : Pos) (a b : Expr) (s : CGState),
      ∃ d, (genExpr (.andE p a b) s).2.code = s.code ++ d ∧
        ∃ k, (genExpr (.andE p a b) s).1 = .temp k ∧
          (∃ i ∈ d, i.op = "IFZ" ∨ i.op = "IFNZ") ∧
          (∃ i ∈ d, i.op = "JUMP") ∧
          (∃ i ∈ d, i.op = "MOV" ∧ i.res = some (tempName k))) ∧
    (∀ (p : Pos) (a b : Expr) (s : CGState),
      ∃ d, (genExpr (.orE p a b) s).2.code = s.code ++ d ∧
        ∃ k, (genExpr (.orE p a b) s).1 = .temp k ∧
          (∃ i ∈ d, i.op = "IFZ" ∨ i.op = "IFNZ") ∧
          (∃ i ∈ d, i.op = "JUMP") ∧
          (∃ i ∈ d, i.op = "MOV" ∧ i.res = some (tempName k))) ∧
    (∀ (p : Pos) (c a b : Expr) (s : CGState),
      ∃ d, (genExpr (.ternary p c a b) s).2.code = s.code ++ d ∧
        ∃ k, (genExpr (.ternary p c a b) s).1 = .temp k ∧
          (∃ i ∈ d, i.op = "IFZ" ∨ i.op = "IFNZ") ∧
          (∃ i ∈ d, i.op = "JUMP") ∧
          (∃ i ∈ d, i.op = "MOV" ∧ i.res = some (tempName k))) ∧
    ((genExpr shortCircuitExample initCG).1 = .temp 0 ∧
     (∃ i ∈ (genExpr shortCircuitExample initCG).2.code, i.op = "IFZ") ∧
     (∃ i ∈ (genExpr shortCircuitExample initCG).2.code, i.op = "JUMP") ∧
     (∃ i ∈ (genExpr shortCircuitExample initCG).2.code,
        i.op = "MOV" ∧ i.res = some (tempName 0))) := by
  refine ⟨?_, ?_, ?_, ?_⟩
  · intro p a b s
    obtain ⟨d, h1, h2⟩ := genExpr_shortcircuit (.andE p a b) s
    exact ⟨d, h1, h2 rfl⟩
  · intro p a b s
    obtain ⟨d, h1, h2⟩ := genExpr_shortcircuit (.orE p a b) s
    exact ⟨d, h1, h2 rfl⟩
  · intro p c a b s
    obtain ⟨d, h1, h2⟩ := genExpr_shortcircuit (.ternary p c a b) s
    exact ⟨d, h1, h2 rfl⟩
  · refine ⟨by decide, by decide, by decide, by decide⟩

/-! ### Temporary-pool behaviour across a chained additive expression -/

theorem genPairs_lit (p : Pos) (txt : String) :
    ∀ (n : Nat) (s : CGState),
      genPairs (List.replicate n ("+", Expr.litE p txt)) s =
        (List.replicate n ("+", Val.str txt), s) := by
  intro n
  induction n with
  | zero => intro s; simp [genPairs]
  | succ m ih =>
      intro s
      simp only [List.replicate_succ, genPairs, genExpr, ih]

theorem emitBin_pool_pop (s : CGState) (op txt : String) (a b : Nat)
    (h : s.temps.free = [b]) :
    (emitBin s op (.temp a) (.str txt)).1 = b ∧
    (emitBin s op (.temp a) (.str txt)).2.temps = ⟨[a], s.temps.next⟩ := by
  have hget : tempGet s.temps = (b, ⟨[], s.temps.next⟩) := by
    unfold tempGet
    rw [h]
    rfl
  unfold emitBin
  rw [hget]
  constructor
  · rfl
  · simp [releaseIfTempS, tempRelease, emitI]

theorem emitBin_pool_mint (s : CGState) (op txt : String) (a : Nat)
    (h : s.temps.free = []) :
    (emitBin s op (.temp a) (.str txt)).1 = s.temps.next ∧
    (emitBin s op (.temp a) (.str txt)).2.temps = ⟨[a], s.temps.next + 1⟩ := by
  have hget : tempGet s.temps = (s.temps.next, ⟨[], s.temps.next + 1⟩) := by
    unfold tempGet
    rw [h]
    rfl
  unfold emitBin
  rw [hget]
  constructor
  · rfl
  · simp [releaseIfTempS, tempRelease, emitI, h]

theorem emitBin_pool_mint_str (s : CGState) (op x y : String)
    (h : s.temps.free = []) :
    (emitBin s op (.str x) (.str y)).1 = s.temps.next ∧
    (emitBin s op (.str x) (.str y)).2.temps = ⟨[], s.temps.next + 1⟩ := by
  have hget : tempGet s.temps = (s.temps.next, ⟨[], s.temps.next + 1⟩) := by
    unfold tempGet
    rw [h]
    rfl
  unfold emitBin
  rw [hget]
  constructor
  · rfl
  · simp [releaseIfTempS, tempRelease, emitI, h]

/-- Once the pool has exactly one free id, every further `_emit_bin` step of a
literal chain pops it and releases the accumulator: the next-id counter never
moves again. -/
theorem foldBin_chain_invariant (txt : String) :
    ∀ (n : Nat) (a b : Nat) (s : CGState), s.temps.free = [b] →
      (foldBin (.temp a) (List.replicate n ("+", Val.str txt)) s).2.temps.next =
        s.temps.next ∧
      ∃ c, (foldBin (.temp a) (List.replicate n ("+", Val.str txt)) s).2.temps.free = [c] := by
  intro n
  induction n with
  | zero => intro a b s h; exact ⟨rfl, ⟨b, h⟩⟩
  | succ m ih =>
      intro a b s h
      obtain ⟨h1, h2⟩ := emitBin_pool_pop s "+" txt a b h
      simp only [List.replicate_succ, foldBin]
      rcases he : emitBin s "+" (.temp a) (.str txt) with ⟨idx, s1⟩
      rw [he] at h1 h2
      have hfree : s1.temps.free = [a] := by rw [h2]
      have hnext : s1.temps.next = s.temps.next := by rw [h2]
      obtain ⟨r1, r2⟩ := ih idx a s1 hfree
      rw [r1, hnext]
      exact ⟨rfl, r2⟩

/-- C8: `TempPool` reuse is LIFO — releasing an id and then requesting one
returns exactly the released id and restores the pool; a fresh id (the next
integer) is minted only when the free list is empty; and across the chained
additive expression `x + y + … + y` (any length) the generator mints at most
two distinct temporary ids. -/
theorem c8_temp_pool_lifo :
    (∀ (p : TempPool) (i : Nat), tempGet (tempRelease p i) = (i, p)) ∧
    (∀ p : TempPool, p.free = [] → tempGet p = (p.next, ⟨[], p.next + 1⟩)) ∧
    (∀ n : Nat,
      ((genExpr (.additive ⟨1, 0⟩ (.litE ⟨1, 0⟩ "x")
          (List.replicate n ("+", .litE ⟨1, 0⟩ "y"))) initCG).2).temps.next ≤ 2) := by
  refine ⟨?_, ?_, ?_⟩
  · intro p i
    unfold tempGet tempRelease
    simp
  · intro p h
    unfold tempGet
    rw [h]
    rfl
  · intro n
    have hred : (genExpr (.additive ⟨1, 0⟩ (.litE ⟨1, 0⟩ "x")
          (List.replicate n ("+", .litE ⟨1, 0⟩ "y"))) initCG) =
        foldBin (.str "x") (List.replicate n ("+", Val.str "y")) initCG := by
      simp only [genExpr, genPairs_lit]
    rw [hred]
    match n with
    | 0 => decide
    | 1 => decide
    | Nat.succ (Nat.succ m) =>
      obtain ⟨h1, h2⟩ := emitBin_pool_mint_str initCG "+" "x" "y" rfl
      simp only [List.replicate_succ, foldBin]
      rcases he : emitBin initCG "+" (.str "x") (.str "y") with ⟨i1, s1⟩
      rw [he] at h1 h2
      obtain ⟨g1, g2⟩ := emitBin_pool_mint s1 "+" "y" i1 (by rw [h2])
      rcases hf : emitBin s1 "+" (.temp i1) (.str "y") with ⟨i2, s2⟩
      rw [hf] at g1 g2
      have hfree2 : s2.temps.free = [i1] := by rw [g2]
      obtain ⟨r1, _⟩ := foldBin_chain_invariant "y" m i2 i1 s2 hfree2
      rw [r1]
      have : s2.temps.next = 2 := by
        rw [g2]
        have h1n : s1.temps.next = 1 := by rw [h2]; decide
        simp [h1n]
      rw [this]

/-- Witness for C8 at concrete inputs: releasing 3 into the pool `⟨[5], 7⟩` and
requesting again returns 3 and restores the pool; the empty-free pool `⟨[], 4⟩`
mints 4; the five-term chain stays within two temporaries. -/
theorem c8_temp_pool_lifo_witness :
    tempGet (tempRelease ⟨[5], 7⟩ 3) = (3, ⟨[5], 7⟩) ∧
    (TempPool.mk [] 4).free = [] ∧
    tempGet ⟨[], 4⟩ = (4, ⟨[], 5⟩) ∧
    ((genExpr (.additive ⟨1, 0⟩ (.litE ⟨1, 0⟩ "x")
        (List.replicate 5 ("+", .litE ⟨1, 0⟩ "y"))) initCG).2).temps.next ≤ 2 :=
  ⟨c8_temp_pool_lifo.1 ⟨[5], 7⟩ 3, rfl, c8_temp_pool_lifo.2.1 ⟨[], 4⟩ rfl,
   c8_temp_pool_lifo.2.2 5⟩

/-! ### Frame sizing and the `ENTER` backpatch (C9) -/

mutual

/-- Does a statement contain a nested function declaration? -/
def stmtHasFunc (st : Stmt) : Bool :=
  match st with
  | .funcDecl _ _ _ _ _ => true
  | .blockS _ ss => listHasFunc ss
  | .ifS _ _ tb eb => listHasFunc tb || optHasFunc eb
  | .whileS _ _ body => listHasFunc body
  | _ => false
termination_by structural st

def optHasFunc (ob : Option (List Stmt)) : Bool :=
  match ob with
  | some el => listHasFunc el
  | none => false
termination_by structural ob

def listHasFunc (l : List Stmt) : Bool :=
  match l with
  | [] => false
  | st :: t => stmtHasFunc st || listHasFunc t
termination_by structural l

end

mutual

/-- Number of `visitVariableDeclaration` visits a statement performs (each one
calls `FrameLayout.add_local` when a function is active). -/
def stmtLocals (st : Stmt) : Nat :=
  match st with
  | .varDecl _ _ _ _ => 1
  | .blockS _ ss => listLocals ss
  | .ifS _ _ tb eb => listLocals tb + optLocals eb
  | .whileS _ _ body => listLocals body
  | _ => 0
termination_by structural st

def optLocals (ob : Option (List Stmt)) : Nat :=
  match ob with
  | some el => listLocals el
  | none => 0
termination_by structural ob

def listLocals (l : List Stmt) : Nat :=
  match l with
  | [] => 0
  | st :: t => stmtLocals st + listLocals t
termination_by structural l

end

theorem lookup_map_replace (n : String) (fl : FrameLayout) :
    ∀ fs : List (String × FrameLayout), (fs.lookup n).isSome = true →
      (fs.map (fun pr =>
        match pr.1 == n with
        | true => (n, fl)
        | false => pr)).lookup n = some fl := by
  intro fs
  induction fs with
  | nil => intro h; simp at h
  | cons pr t ih =>
      rcases pr with ⟨k, v⟩
      intro h
      by_cases hk : k = n
      · subst hk
        simp [List.lookup]
      · have hkb : (k == n) = false := beq_eq_false_iff_ne.mpr hk
        have hnb : (n == k) = false := beq_eq_false_iff_ne.mpr (Ne.symm hk)
        simp only [List.lookup, hnb] at h
        simp only [List.map_cons, hkb, List.lookup, hnb]
        exact ih h

theorem lookup_append_none {α : Type} [BEq α] {β : Type} (n : α) :
    ∀ (fs l : List (α × β)), fs.lookup n = none → (fs ++ l).lookup n = l.lookup n := by
  intro fs l
  induction fs with
  | nil => intro _; simp
  | cons pr t ih =>
      rcases pr with ⟨k, v⟩
      intro h
      simp only [List.lookup, List.cons_append] at h ⊢
      cases hk : n == k with
      | true => rw [hk] at h; simp at h
      | false => rw [hk] at h; exact ih h

theorem framesGet_framesSet (fs : List (String × FrameLayout)) (n : String)
    (fl : FrameLayout) : framesGet (framesSet fs n fl) n = fl := by
  unfold framesSet framesGet
  by_cases h : (fs.lookup n).isSome
  · rw [if_pos h, lookup_map_replace n fl fs h]
    rfl
  · rw [if_neg h]
    have hnone : fs.lookup n = none := by
      cases hx : fs.lookup n with
      | none => rfl
      | some x => rw [hx] at h; simp at h
    rw [lookup_append_none n fs [(n, fl)] hnone]
    simp [List.lookup]

@[simp] theorem frameModify_code (s : CGState) (n : String) (g : FrameLayout → FrameLayout) :
    (frameModify s n g).code = s.code := rfl

@[simp] theorem frameModify_currentFunction (s : CGState) (n : String)
    (g : FrameLayout → FrameLayout) :
    (frameModify s n g).currentFunction = s.currentFunction := rfl

@[simp] theorem frameModify_get_self (s : CGState) (n : String)
    (g : FrameLayout → FrameLayout) :
    framesGet (frameModify s n g).frames n = g (framesGet s.frames n) :=
  framesGet_framesSet s.frames n (g (framesGet s.frames n))

/-- While a function is active and the statement declares no nested function,
statement generation keeps the current function, only appends code, and grows
the active frame's `locals_size` by 4 bytes per variable declaration visited. -/
theorem genStmt_inFunction (st : Stmt) :
    ∀ (s : CGState) (f : String), s.currentFunction = some f →
      stmtHasFunc st = false →
      (genStmt st s).currentFunction = some f ∧
      (∃ d, (genStmt st s).code = s.code ++ d) ∧
      (framesGet (genStmt st s).frames f).localsSize =
        (framesGet s.frames f).localsSize + 4 * stmtLocals st := by
  refine @Stmt.rec
    (fun st => ∀ (s : CGState) (f : String), s.currentFunction = some f →
      stmtHasFunc st = false →
      (genStmt st s).currentFunction = some f ∧
      (∃ d, (genStmt st s).code = s.code ++ d) ∧
      (framesGet (genStmt st s).frames f).localsSize =
        (framesGet s.frames f).localsSize + 4 * stmtLocals st)
    (fun l => ∀ (s : CGState) (f : String), s.currentFunction = some f →
      listHasFunc l = false →
      (genStmts l s).currentFunction = some f ∧
      (∃ d, (genStmts l s).code = s.code ++ d) ∧
      (framesGet (genStmts l s).frames f).localsSize =
        (framesGet s.frames f).localsSize + 4 * listLocals l)
    (fun ob => ∀ (el : List Stmt), ob = some el →
      ∀ (s : CGState) (f : String), s.currentFunction = some f →
      listHasFunc el = false →
      (genStmts el s).currentFunction = some f ∧
      (∃ d, (genStmts el s).code = s.code ++ d) ∧
      (framesGet (genStmts el s).frames f).localsSize =
        (framesGet s.frames f).localsSize + 4 * listLocals el)
    ?_ ?_ ?_ ?_ ?_ ?_ ?_ ?_ ?_ ?_ ?_ st
  · intro p e s f hcf hnf
    have hfr := genExpr_frames_cf e s
    obtain ⟨d, hd⟩ := genExpr_code_ext e s
    refine ⟨?_, ⟨d, ?_⟩, ?_⟩
    · show (genExpr e s).2.currentFunction = some f
      rw [hfr.2]; exact hcf
    · exact hd
    · show (framesGet (genExpr e s).2.frames f).localsSize = _
      rw [hfr.1]
      simp [stmtLocals]
  · intro p name ann initE s f hcf hnf
    cases initE with
    | none =>
        simp only [genStmt, hcf]
        refine ⟨by simpa using hcf, ⟨[], by simp⟩, ?_⟩
        rw [frameModify_get_self]
        simp [flAddLocal, stmtLocals, Nat.add_comm]
    | some e =>
        simp only [genStmt, hcf]
        rcases hge : genExpr e (frameModify s f (fun fl => flAddLocal fl name 4))
          with ⟨v, s2⟩
        have hfr := genExpr_frames_cf e (frameModify s f (fun fl => flAddLocal fl name 4))
        obtain ⟨d, hd⟩ :=
          genExpr_code_ext e (frameModify s f (fun fl => flAddLocal fl name 4))
        rw [hge] at hfr hd
        refine ⟨?_, ?_, ?_⟩
        · simp only [releaseIfTempS_currentFunction, emitI_currentFunction]
          rw [hfr.2]
          exact hcf
        · refine ⟨d ++ [⟨"MOV", some (asOperand v), none, some name, ""⟩], ?_⟩
          simp only [releaseIfTempS_code, emitI_code]
          rw [hd]
          simp [List.append_assoc]
        · simp only [releaseIfTempS_frames, emitI_frames]
          rw [hfr.1, frameModify_get_self]
          simp [flAddLocal, stmtLocals, Nat.add_comm]
  · intro p ss ih s f hcf hnf
    have := ih s f hcf (by simpa [stmtHasFunc] using hnf)
    simpa [genStmt, stmtLocals] using this
  · intro p c tb eb iht ihe s f hcf hnf
    have hnfor : (listHasFunc tb || optHasFunc eb) = false := hnf
    have hnftb : listHasFunc tb = false := (Bool.or_eq_false_iff.mp hnfor).1
    rcases hge : genExpr c s with ⟨v, s1⟩
    have hfr := genExpr_frames_cf c s
    obtain ⟨d0, hd0⟩ := genExpr_code_ext c s
    rw [hge] at hfr hd0
    have hc1 : s1.currentFunction = some f := by rw [hfr.2]; exact hcf
    have hl1 : framesGet s1.frames f = framesGet s.frames f := by rw [hfr.1]
    obtain ⟨ct, ⟨dt, hdt⟩, lt⟩ := iht
      (releaseIfTempS
        (emitI s1 "IFZ" (some (asOperand v)) none (some (freshLabel s1.code))) v) f
      (by simpa using hc1) hnftb
    cases eb with
    | none =>
        simp only [genStmt, hge]
        refine ⟨?_, ?_, ?_⟩
        · simpa using ct
        · refine ⟨d0 ++ [⟨"IFZ", some (asOperand v), none, some (freshLabel s1.code), ""⟩]
            ++ dt ++ [⟨"JUMP", some (freshLabel s1.code), none, none, ""⟩,
                      ⟨"LABEL", some (freshLabel s1.code), none, none, ""⟩,
                      ⟨"LABEL", some (freshLabel s1.code), none, none, ""⟩], ?_⟩
          simp only [emitLabel_code, emitI_code]
          rw [hdt]
          simp only [releaseIfTempS_code, emitI_code]
          rw [hd0]
          simp [List.append_assoc]
        · simp only [emitLabel_frames, emitI_frames]
          rw [lt]
          simp only [releaseIfTempS_frames, emitI_frames]
          rw [hl1]
          simp [stmtLocals, optLocals]
    | some el =>
        have hnfel : listHasFunc el = false := by
          have := (Bool.or_eq_false_iff.mp hnfor).2
          simpa [optHasFunc] using this
        obtain ⟨ce, ⟨de, hde⟩, le⟩ := ihe el rfl
          (emitLabel
            (emitI
              (genStmts tb
                (releaseIfTempS
                  (emitI s1 "IFZ" (some (asOperand v)) none (some (freshLabel s1.code))) v))
              "JUMP" (some (freshLabel s1.code)) none none)
            (freshLabel s1.code)) f
          (by simpa using ct) hnfel
        simp only [genStmt, hge]
        refine ⟨?_, ?_, ?_⟩
        · simpa using ce
        · refine ⟨d0 ++ [⟨"IFZ", some (asOperand v), none, some (freshLabel s1.code), ""⟩]
            ++ dt ++ [⟨"JUMP", some (freshLabel s1.code), none, none, ""⟩,
                      ⟨"LABEL", some (freshLabel s1.code), none, none, ""⟩]
            ++ de ++ [⟨"LABEL", some (freshLabel s1.code), none, none, ""⟩], ?_⟩
          simp only [emitLabel_code]
          rw [hde]
          simp only [emitLabel_code, emitI_code]
          rw [hdt]
          simp only [releaseIfTempS_code, emitI_code]
          rw [hd0]
          simp [List.append_assoc]
        · simp only [emitLabel_frames]
          rw [le]
          simp only [emitLabel_frames, emitI_frames]
          rw [lt]
          simp only [releaseIfTempS_frames, emitI_frames]
          rw [hl1]
          simp [stmtLocals, optLocals]
          ring
  · intro p c body ih s f hcf hnf
    have hnfb : listHasFunc body = false := by simpa [stmtHasFunc] using hnf
    rcases hge : genExpr c (emitLabel s (freshLabel s.code)) with ⟨v, s1⟩
    have hfr := genExpr_frames_cf c (emitLabel s (freshLabel s.code))
    obtain ⟨d0, hd0⟩ := genExpr_code_ext c (emitLabel s (freshLabel s.code))
    rw [hge] at hfr hd0
    have hc1 : s1.currentFunction = some f := by
      rw [hfr.2]; simpa using hcf
    have hl1 : framesGet s1.frames f = framesGet s.frames f := by
      rw [hfr.1]; rfl
    obtain ⟨ct, ⟨dt, hdt⟩, lt⟩ := ih
      (releaseIfTempS
        (emitI s1 "IFZ" (some (asOperand v)) none (some (freshLabel s.code))) v) f
      (by simpa using hc1) hnfb
    simp only [genStmt, hge]
    refine ⟨?_, ?_, ?_⟩
    · simpa using ct
    · refine ⟨[⟨"LABEL", some (freshLabel s.code), none, none, ""⟩] ++ d0
        ++ [⟨"IFZ", some (asOperand v), none, some (freshLabel s.code), ""⟩]
        ++ dt ++ [⟨"JUMP", some (freshLabel s.code), none, none, ""⟩,
                  ⟨"LABEL", some (freshLabel s.code), none, none, ""⟩], ?_⟩
      simp only [emitLabel_code, emitI_code]
      rw [hdt]
      simp only [releaseIfTempS_code, emitI_code]
      rw [hd0]
      simp [List.append_assoc]
    · simp only [emitLabel_frames, emitI_frames]
      rw [lt]
      simp only [releaseIfTempS_frames, emitI_frames]
      rw [hl1]
      simp [stmtLocals]
  · intro p e s f hcf hnf
    cases e with
    | none =>
        simp only [genStmt]
        refine ⟨by simpa using hcf, ⟨_, emitI_code s "JUMP" _ _ _⟩, ?_⟩
        simp [stmtLocals]
    | some ex =>
        rcases hge : genExpr ex s with ⟨v, s1⟩
        have hfr := genExpr_frames_cf ex s
        obtain ⟨d0, hd0⟩ := genExpr_code_ext ex s
        rw [hge] at hfr hd0
        have hc1 : s1.currentFunction = some f := by rw [hfr.2]; exact hcf
        have hfr1 : s1.frames = s.frames := hfr.1
        have hcode1 : s1.code = s.code ++ d0 := hd0
        simp only [genStmt, hge]
        rcases hri : s1.funcRetIdx with _ | i
        · rcases hgt : tempGet s1.temps with ⟨j, tp⟩
          simp only [hri, hgt]
          refine ⟨by simpa using hc1, ?_, ?_⟩
          · refine ⟨d0 ++ [⟨"MOV", some (asOperand v), none, some (tempName j), ""⟩,
              ⟨"JUMP", some (f ++ "_exit"), none, none, ""⟩], ?_⟩
            simp only [emitI_code, releaseIfTempS_code, releaseIfTempS_currentFunction,
              emitI_currentFunction]
            rw [hcode1]
            simp [hc1, List.append_assoc]
          · simp only [emitI_frames, releaseIfTempS_frames]
            rw [hfr1]
            simp [stmtLocals]
        · simp only [hri]
          refine ⟨by simpa using hc1, ?_, ?_⟩
          · refine ⟨d0 ++ [⟨"MOV", some (asOperand v), none, some (tempName i), ""⟩,
              ⟨"JUMP", some (f ++ "_exit"), none, none, ""⟩], ?_⟩
            simp only [emitI_code, releaseIfTempS_code, releaseIfTempS_currentFunction,
              emitI_currentFunction]
            rw [hcode1]
            simp [hc1, List.append_assoc]
          · simp only [emitI_frames, releaseIfTempS_frames]
            rw [hfr1]
            simp [stmtLocals]
  · intro p name params retAnn body _ s f hcf hnf
    simp [stmtHasFunc] at hnf
  · intro s f hcf _
    exact ⟨hcf, ⟨[], by simp [genStmts]⟩, by simp [genStmts, listLocals]⟩
  · intro st t ih1 ih2 s f hcf hnf
    have hnf1 : stmtHasFunc st = false := by
      simp only [listHasFunc, Bool.or_eq_false_iff] at hnf
      exact hnf.1
    have hnf2 : listHasFunc t = false := by
      simp only [listHasFunc, Bool.or_eq_false_iff] at hnf
      exact hnf.2
    obtain ⟨c1, ⟨d1, hd1⟩, l1⟩ := ih1 s f hcf hnf1
    obtain ⟨c2, ⟨d2, hd2⟩, l2⟩ := ih2 (genStmt st s) f c1 hnf2
    refine ⟨by simpa [genStmts] using c2, ⟨d1 ++ d2, ?_⟩, ?_⟩
    · simp only [genStmts]
      rw [hd2, hd1, List.append_assoc]
    · simp only [genStmts, listLocals]
      rw [l2, l1]
      ring
  · intro el h
    cases h
  · intro val ih el h
    cases h
    exact ih

/-- List form of `genStmt_inFunction`, through the definitional equality
`genStmt (blockS _ l) = genStmts l`. -/
theorem genStmts_inFunction (l : List Stmt) (s : CGState) (f : String)
    (hcf : s.currentFunction = some f) (hnf : listHasFunc l = false) :
    (genStmts l s).currentFunction = some f ∧
    (∃ d, (genStmts l s).code = s.code ++ d) ∧
    (framesGet (genStmts l s).frames f).localsSize =
      (framesGet s.frames f).localsSize + 4 * listLocals l := by
  have := genStmt_inFunction (.blockS ⟨0, 0⟩ l) s f hcf (by simpa [stmtHasFunc] using hnf)
  simpa [genStmt, stmtHasFunc, stmtLocals] using this

theorem patchA1_append_cons (v : String) :
    ∀ (pre : List TACInstr) (x : TACInstr) (post : List TACInstr),
      patchA1 (pre ++ x :: post) pre.length v = pre ++ { x with a1 := some v } :: post := by
  intro pre
  induction pre with
  | nil => intro x post; rfl
  | cons h t ih =>
      intro x post
      simp only [List.cons_append, List.length_cons, patchA1, List.append_eq]
      rw [ih]

theorem get_append_cons {α : Type} :
    ∀ (pre : List α) (x : α) (post : List α), (pre ++ x :: post).get? pre.length = some x := by
  intro pre
  induction pre with
  | nil => intro x post; rfl
  | cons h t ih =>
      intro x post
      simp only [List.cons_append, List.length_cons, List.get?_cons_succ]
      exact ih x post

theorem get_append_left {α : Type} :
    ∀ (l r : List α) (i : Nat), i < l.length → (l ++ r).get? i = l.get? i := by
  intro l
  induction l with
  | nil => intro r i h; simp at h
  | cons x t ih =>
      intro r i h
      cases i with
      | zero => rfl
      | succ j =>
          simp only [List.cons_append, List.get?_cons_succ]
          exact ih r j (by simpa using h)

@[simp] theorem flAddParam_localsSize (fl : FrameLayout) (n : String) :
    (flAddParam fl n).localsSize = fl.localsSize := rfl

@[simp] theorem frameModify_funcRetIdx (s : CGState) (n : String)
    (g : FrameLayout → FrameLayout) :
    (frameModify s n g).funcRetIdx = s.funcRetIdx := rfl

/-- The `add_param` registration loop touches neither the emitted code, the
current function, the pending return temporary, nor the frame's locals size. -/
theorem paramsFold_state (nm : String) (params : List (String × Option String)) :
    ∀ s : CGState,
      (params.foldl (fun s pr => frameModify s nm (fun fl => flAddParam fl pr.1)) s).code
          = s.code ∧
      (params.foldl (fun s pr => frameModify s nm (fun fl => flAddParam fl pr.1))
          s).currentFunction = s.currentFunction ∧
      (params.foldl (fun s pr => frameModify s nm (fun fl => flAddParam fl pr.1))
          s).funcRetIdx = s.funcRetIdx ∧
      (framesGet (params.foldl (fun s pr => frameModify s nm (fun fl => flAddParam fl pr.1))
          s).frames nm).localsSize = (framesGet s.frames nm).localsSize := by
  induction params with
  | nil => intro s; exact ⟨rfl, rfl, rfl, rfl⟩
  | cons pr t ih =>
      intro s
      obtain ⟨hc, hf, hr, hl⟩ := ih (frameModify s nm (fun fl => flAddParam fl pr.1))
      simp only [List.foldl_cons]
      refine ⟨hc.trans rfl, hf.trans rfl, hr.trans rfl, ?_⟩
      rw [hl, frameModify_get_self, flAddParam_localsSize]

theorem alignTo_eight (m : Nat) : alignTo m 8 % 8 = 0 ∧ m ≤ alignTo m 8 := by
  unfold alignTo
  split
  · omega
  · omega

@[simp] theorem genFuncRet_frames (s : CGState) : (genFuncRet s).frames = s.frames := by
  unfold genFuncRet
  rcases s.funcRetIdx with _ | i <;> rfl

theorem genFuncRet_code_ext (s : CGState) : ∃ d, (genFuncRet s).code = s.code ++ d := by
  unfold genFuncRet
  rcases s.funcRetIdx with _ | i
  · exact ⟨[⟨"RET", none, none, none, ""⟩], rfl⟩
  · exact ⟨[⟨"RET", some (tempName i), none, none, ""⟩], rfl⟩

@[simp] theorem flFinalize_frameSize (fl : FrameLayout) :
    (flFinalize fl).frameSize = alignTo (fl.localsSize + 8) 8 := rfl

@[simp] theorem flFinalize_localsSize (fl : FrameLayout) :
    (flFinalize fl).localsSize = fl.localsSize := rfl

/-- C9: for every generated function whose body declares no nested function and
whose name is new to the layout registry, the `ENTER` instruction (at position
`|previous code| + 1`, right after the entry label) is backpatched to the
finalized frame size `align_to(4·locals + 8, 8)`; that size is 8 (the header
alone) when the body declares no locals, strictly exceeds 8 as soon as any
local is declared, and is always a multiple of 8. -/
theorem c9_frame_sizing (p : Pos) (name : String)
    (params : List (String × Option String)) (retAnn : Option String)
    (body : List Stmt) (s : CGState)
    (hnf : listHasFunc body = false)
    (hfresh : s.frames.lookup name = none) :
    (framesGet (genStmt (.funcDecl p name params retAnn body) s).frames name).frameSize =
      alignTo (4 * listLocals body + 8) 8 ∧
    (genStmt (.funcDecl p name params retAnn body) s).code.get? (s.code.length + 1) =
      some ⟨"ENTER", some (toString (alignTo (4 * listLocals body + 8) 8)), none, none, ""⟩ ∧
    (listLocals body = 0 → alignTo (4 * listLocals body + 8) 8 = 8) ∧
    (listLocals body ≠ 0 → 8 < alignTo (4 * listLocals body + 8) 8) ∧
    alignTo (4 * listLocals body + 8) 8 % 8 = 0 := by
  set sA : CGState := { s with currentFunction := some name } with hA
  set sB : CGState := emitLabel sA ("func_" ++ name) with hB
  set sC : CGState := { sB with frames := framesSet sB.frames name (framesGet sB.frames name) }
    with hC
  set sD : CGState :=
    params.foldl (fun st pr => frameModify st name (fun fl => flAddParam fl pr.1)) sC with hD
  set sE : CGState := emitI sD "ENTER" (some "0") none none with hE
  set sF : CGState := { sE with funcRetIdx := none } with hF
  set sG : CGState := genStmts body sF with hG
  set sH : CGState := frameModify sG name flFinalize with hH
  set sI : CGState :=
    { sH with code := patchA1 sH.code sD.code.length (toString (framesGet sH.frames name).frameSize) } with hI
  set sJ : CGState := emitLabel sI (name ++ "_exit") with hJ
  set sK : CGState := emitI sJ "LEAVE" none none none with hK
  set sL : CGState := genFuncRet sK with hL
  have hmain : genStmt (.funcDecl p name params retAnn body) s =
      { sL with currentFunction := none, funcRetIdx := none } := rfl
  obtain ⟨pcode, pcf, _, plocals⟩ := paramsFold_state name params sC
  have hcfF : sF.currentFunction = some name := by
    show sD.currentFunction = some name
    rw [hD, pcf]
    rfl
  have hget0 : framesGet s.frames name = emptyFrame name := by
    unfold framesGet
    rw [hfresh]
    rfl
  have hlocals0 : (framesGet sF.frames name).localsSize = 0 := by
    show (framesGet sD.frames name).localsSize = 0
    rw [hD, plocals]
    show (framesGet (framesSet sB.frames name (framesGet sB.frames name)) name).localsSize = 0
    rw [framesGet_framesSet]
    show (framesGet s.frames name).localsSize = 0
    rw [hget0]
    rfl
  obtain ⟨cfG, ⟨dB, hdB⟩, localsG⟩ := genStmts_inFunction body sF name hcfF hnf
  rw [← hG] at cfG hdB localsG
  have hlocalsG : (framesGet sG.frames name).localsSize = 4 * listLocals body := by
    rw [localsG, hlocals0]
    omega
  have hframesHname : framesGet sH.frames name = flFinalize (framesGet sG.frames name) := by
    rw [hH]
    exact frameModify_get_self sG name flFinalize
  have hfsH : (framesGet sH.frames name).frameSize = alignTo (4 * listLocals body + 8) 8 := by
    rw [hframesHname, flFinalize_frameSize, hlocalsG]
  have hframesFinal :
      framesGet (genStmt (.funcDecl p name params retAnn body) s).frames name =
        framesGet sH.frames name := by
    rw [hmain]
    show framesGet sL.frames name = framesGet sH.frames name
    rw [hL, genFuncRet_frames]
    show framesGet sI.frames name = framesGet sH.frames name
    rfl
  have hcodeD : sD.code = s.code ++ [⟨"LABEL", some ("func_" ++ name), none, none, ""⟩] := by
    rw [hD, pcode]
    show sB.code = _
    rw [hB, emitLabel_code]
  have hlenD : sD.code.length = s.code.length + 1 := by rw [hcodeD]; simp
  have hcodeG : sG.code = sD.code ++ (⟨"ENTER", some "0", none, none, ""⟩ :: dB) := by
    rw [hdB]
    show sE.code ++ dB = _
    rw [hE, emitI_code]
    simp [List.append_assoc]
  have hcodeI : sI.code = sD.code ++
      (⟨"ENTER", some (toString (alignTo (4 * listLocals body + 8) 8)), none, none, ""⟩ :: dB) := by
    show patchA1 sH.code sD.code.length (toString (framesGet sH.frames name).frameSize) = _
    have hcodeH : sH.code = sD.code ++ (⟨"ENTER", some "0", none, none, ""⟩ :: dB) := hcodeG
    rw [hcodeH, hfsH, patchA1_append_cons]
  obtain ⟨dR, hdR⟩ := genFuncRet_code_ext sK
  have hcodeFinal : (genStmt (.funcDecl p name params retAnn body) s).code =
      sD.code ++
        (⟨"ENTER", some (toString (alignTo (4 * listLocals body + 8) 8)), none, none, ""⟩ ::
          (dB ++ [⟨"LABEL", some (name ++ "_exit"), none, none, ""⟩,
                  ⟨"LEAVE", none, none, none, ""⟩] ++ dR)) := by
    rw [hmain]
    show sL.code = _
    rw [hL, hdR, hK, emitI_code, hJ, emitLabel_code, hcodeI]
    simp [List.append_assoc]
  refine ⟨?_, ?_, ?_, ?_, ?_⟩
  · rw [hframesFinal, hfsH]
  · rw [hcodeFinal, ← hlenD]
    exact get_append_cons sD.code _ _
  · intro h
    rw [h]
    decide
  · intro h
    have h8 := alignTo_eight (4 * listLocals body + 8)
    omega
  · exact (alignTo_eight (4 * listLocals body + 8)).1

/-- Witness for C9 at a concrete input: generating
`function main(): integer { let i: integer = 1; return i; }` from the fresh
generator state backpatches the `ENTER` at index 1 with frame size 16
(one 4-byte local rounded up), which exceeds the 8-byte no-locals size and is a
multiple of 8. -/
theorem c9_frame_sizing_witness :
    listHasFunc [Stmt.varDecl ⟨2, 2⟩ "i" (some "integer") (some (.litE ⟨2, 19⟩ "1")),
                 Stmt.retS ⟨3, 2⟩ (some (.identE ⟨3, 9⟩ "i"))] = false ∧
    (initCG.frames.lookup "main") = none ∧
    ((framesGet (genStmt (.funcDecl ⟨1, 0⟩ "main" [] (some "integer")
        [Stmt.varDecl ⟨2, 2⟩ "i" (some "integer") (some (.litE ⟨2, 19⟩ "1")),
         Stmt.retS ⟨3, 2⟩ (some (.identE ⟨3, 9⟩ "i"))]) initCG).frames "main").frameSize =
      alignTo (4 * listLocals [Stmt.varDecl ⟨2, 2⟩ "i" (some "integer") (some (.litE ⟨2, 19⟩ "1")),
         Stmt.retS ⟨3, 2⟩ (some (.identE ⟨3, 9⟩ "i"))] + 8) 8 ∧
     (genStmt (.funcDecl ⟨1, 0⟩ "main" [] (some "integer")
        [Stmt.varDecl ⟨2, 2⟩ "i" (some "integer") (some (.litE ⟨2, 19⟩ "1")),
         Stmt.retS ⟨3, 2⟩ (some (.identE ⟨3, 9⟩ "i"))]) initCG).code.get?
          (initCG.code.length + 1) =
      some ⟨"ENTER", some (toString (alignTo (4 * listLocals
          [Stmt.varDecl ⟨2, 2⟩ "i" (some "integer") (some (.litE ⟨2, 19⟩ "1")),
           Stmt.retS ⟨3, 2⟩ (some (.identE ⟨3, 9⟩ "i"))] + 8) 8)), none, none, ""⟩ ∧
     (listLocals [Stmt.varDecl ⟨2, 2⟩ "i" (some "integer") (some (.litE ⟨2, 19⟩ "1")),
        Stmt.retS ⟨3, 2⟩ (some (.identE ⟨3, 9⟩ "i"))] = 0 →
       alignTo (4 * listLocals [Stmt.varDecl ⟨2, 2⟩ "i" (some "integer") (some (.litE ⟨2, 19⟩ "1")),
         Stmt.retS ⟨3, 2⟩ (some (.identE ⟨3, 9⟩ "i"))] + 8) 8 = 8) ∧
     (listLocals [Stmt.varDecl ⟨2, 2⟩ "i" (some "integer") (some (.litE ⟨2, 19⟩ "1")),
        Stmt.retS ⟨3, 2⟩ (some (.identE ⟨3, 9⟩ "i"))] ≠ 0 →
       8 < alignTo (4 * listLocals [Stmt.varDecl ⟨2, 2⟩ "i" (some "integer") (some (.litE ⟨2, 19⟩ "1")),
         Stmt.retS ⟨3, 2⟩ (some (.identE ⟨3, 9⟩ "i"))] + 8) 8) ∧
     alignTo (4 * listLocals [Stmt.varDecl ⟨2, 2⟩ "i" (some "integer") (some (.litE ⟨2, 19⟩ "1")),
        Stmt.retS ⟨3, 2⟩ (some (.identE ⟨3, 9⟩ "i"))] + 8) 8 % 8 = 0) :=
  ⟨by decide, rfl,
   c9_frame_sizing ⟨1, 0⟩ "main" [] (some "integer")
     [Stmt.varDecl ⟨2, 2⟩ "i" (some "integer") (some (.litE ⟨2, 19⟩ "1")),
      Stmt.retS ⟨3, 2⟩ (some (.identE ⟨3, 9⟩ "i"))] initCG (by decide) rfl⟩

end FaseSemantico
